import Mathlib

/-!
Shallow embedding of the Retouch SLA checker (`src/app.py`).

The program is a single-pass batch transformation over a tabular dataset:
it prunes a fixed set of positional columns, resolves the scan-in / scan-out
columns by name heuristics, normalizes date columns, evaluates a per-category
SLA, classifies studio residency, and aggregates a status flag.

Modelling conventions:
* Calendar dates are `Int` day indices with day 0 = 1970-01-01 (a Thursday),
  so the weekday of day `d` is `(d + 3) % 7` with 0 = Monday.
* A pandas cell is a `Cell`: a date (`datetime64`), a number, a string, or
  `blank` (NaN/NaT/None).  `pd.isna` holds exactly on `blank`.
* A dataframe is a `Table`: an ordered list of column names plus rows; a row
  is a total function from column names to cells, and reads go through
  `cellAt`, which returns `blank` for columns not present in the table
  (the semantics of `row.get` on a missing key).
* `np.busday_count(s, e)` counts the weekdays in the half-open interval
  `[s, e)`; when `e < s` it returns the negated count over the reversed
  interval.
* `pd.to_datetime(_, errors='coerce')` on free text is modelled for the
  slash-separated numeric grammar `a/b/c` with dateutil's default
  (`dayfirst=False`) resolution: `a` is the month when `a ≤ 12`, otherwise
  `b` is the month when `b ≤ 12`, otherwise the parse fails; strings outside
  this grammar coerce to NaT.  Numeric cells are epoch nanoseconds.
-/

namespace RetouchSLA

/-- Cell value of one spreadsheet cell after loading: a calendar date
(`datetime64`), a number, a piece of text, or a missing value
(NaN / NaT / None, all of which satisfy `pd.isna`). -/
inductive Cell where
  | date (d : Int)
  | num (v : Int)
  | text (s : String)
  | blank
deriving DecidableEq, Repr

/-- A row of the working table, as a total valuation of column names.
Values at names outside the table's column list are never observed:
all reads go through `cellAt`. -/
def Row : Type := String → Cell

/-- The working dataframe: an ordered list of column names plus the rows. -/
structure Table where
  cols : List String
  rows : List Row

/-- Reading a cell: `row.get(c)` yields the stored value when the column
exists and None (here `blank`) otherwise. -/
def cellAt (t : Table) (r : Row) (c : String) : Cell :=
  if t.cols.contains c then r c else Cell.blank

/-- The list of values of one column, in row order. -/
def colVals (t : Table) (c : String) : List Cell :=
  t.rows.map (fun r => cellAt t r c)

/-- Column assignment `df[c] = f(row)`: overwrites the column in place when
it exists, otherwise appends it at the end (pandas semantics). -/
def setCol (t : Table) (c : String) (f : Row → Cell) : Table :=
  { cols := if t.cols.contains c then t.cols else t.cols ++ [c]
    rows := t.rows.map (fun r => fun x => if x = c then f r else r x) }

/-- Dropping columns by name (`df.drop(columns=…, errors='ignore')`):
every column bearing one of the names is removed. -/
def dropColsByName (t : Table) (names : List String) : Table :=
  { cols := t.cols.filter (fun c => !names.contains c)
    rows := t.rows }

/-- Row filtering `df = df[mask]`. -/
def filterRows (t : Table) (p : Row → Bool) : Table :=
  { cols := t.cols, rows := t.rows.filter p }

/-! ## Business-day calculator (`np.busday_count`, src/app.py lines 27-30) -/

/-- Whether day `d` is a weekday (Monday-Friday).  Day 0 is 1970-01-01,
a Thursday, so the Monday-based weekday of `d` is `(d + 3) % 7`. -/
def weekdayMF (d : Int) : Bool := (d + 3) % 7 < 5

/-- Number of weekdays among the `n` consecutive days starting at `s`. -/
def busdaysBetween (s : Int) (n : Nat) : Nat :=
  ((List.range n).filter (fun (i : Nat) => weekdayMF (s + i))).length

/-- Model of `np.busday_count s e`: the number of weekdays in the half-open
interval `[s, e)`; for `e < s` the count over the reversed interval, negated
(numpy returns a negative count when the end date precedes the start). -/
def busdayCount (s e : Int) : Int :=
  if s ≤ e then (busdaysBetween s (e - s).toNat : Int)
  else -(busdaysBetween e (s - e).toNat : Int)

/-- `working_days_diff` (src/app.py lines 27-30): NaN when either input is
NaN, otherwise `np.busday_count start end`. -/
def workingDaysDiff (start finish : Option Int) : Option Int :=
  match start, finish with
  | some s, some e => some (busdayCount s e)
  | _, _ => none

/-! ## Character-level string utilities

Python's `str.lower`, `str.upper`, `str.strip` and the substring test
`pat in s` are modelled on the character lists underlying Lean strings
(ASCII case folding, which covers every column name the program handles). -/

/-- ASCII lower-casing of one character (`str.lower`). -/
def lowerCh (c : Char) : Char :=
  if 65 ≤ c.toNat && c.toNat ≤ 90 then Char.ofNat (c.toNat + 32) else c

/-- ASCII upper-casing of one character (`str.upper`). -/
def upperCh (c : Char) : Char :=
  if 97 ≤ c.toNat && c.toNat ≤ 122 then Char.ofNat (c.toNat - 32) else c

/-- Lower-cased character list of a string. -/
def lowerStr (s : String) : List Char := s.data.map lowerCh

/-- Whether `pat` occurs at the head of `l`. -/
def headMatches : List Char → List Char → Bool
  | [], _ => true
  | _ :: _, [] => false
  | p :: ps, c :: cs => p == c && headMatches ps cs

/-- Whether `pat` occurs somewhere in `l` (Python's `pat in s`). -/
def hasSub (pat : List Char) : List Char → Bool
  | [] => pat.isEmpty
  | c :: cs => headMatches pat (c :: cs) || hasSub pat cs

/-- Leading/trailing-space removal (`str.strip`). -/
def trimChars (l : List Char) : List Char :=
  ((l.dropWhile (· == ' ')).reverse.dropWhile (· == ' ')).reverse

/-! ## Excel-letter positional pruning (src/app.py lines 11, 18-24, 111-113) -/

/-- `COLS_TO_DELETE` (src/app.py line 11). -/
def COLS_TO_DELETE : List String :=
  ["A", "C", "D", "H", "I", "J", "K", "L", "M", "N", "O", "P", "Q", "S",
   "X", "AB", "AC", "AD", "AE", "AF", "AG"]

/-- `excel_col_to_index` (src/app.py lines 18-24): base-26 letter arithmetic,
`A` ↦ 0, `Z` ↦ 25, `AA` ↦ 26, … -/
def excelColToIndex (col : String) : Nat :=
  (((trimChars col.data).map upperCh).foldl
    (fun num ch => num * 26 + (ch.toNat - 64)) 0) - 1

/-- `sorted({excel_col_to_index(l) for l in COLS_TO_DELETE})`
(src/app.py line 111): the distinct indices in increasing order. -/
def prunedIndices : List Nat :=
  List.insertionSort (· ≤ ·) (COLS_TO_DELETE.map excelColToIndex).dedup

/-- `names_to_drop` (src/app.py line 112): the names currently occupying the
pruned positions; indices beyond the current width are ignored. -/
def namesToDrop (cols : List String) : List String :=
  (prunedIndices.filter (· < cols.length)).map (fun i => cols.getD i "")

/-- The column pruner (src/app.py lines 111-113). -/
def pruneTable (t : Table) : Table :=
  dropColsByName t (namesToDrop t.cols)

/-! ## Heuristic column resolver (src/app.py lines 118, 126) -/

/-- Whether a column name case-insensitively contains both "scan" and "in"
(src/app.py line 118). -/
def matchScanIn (c : String) : Bool :=
  hasSub "scan".data (lowerStr c) && hasSub "in".data (lowerStr c)

/-- Whether a column name case-insensitively contains both "scan" and "out"
(src/app.py line 126). -/
def matchScanOut (c : String) : Bool :=
  hasSub "scan".data (lowerStr c) && hasSub "out".data (lowerStr c)

/-- First column matching the scan-in heuristic (src/app.py line 118). -/
def findScanIn (cols : List String) : Option String := cols.find? matchScanIn

/-- First column matching the scan-out heuristic (src/app.py line 126). -/
def findScanOut (cols : List String) : Option String := cols.find? matchScanOut

/-! ## Date normalizer (`pd.to_datetime(_, errors='coerce')`,
src/app.py lines 123, 128, 143-145) -/

/-- Gregorian leap-year test. -/
def isLeap (y : Nat) : Bool := y % 4 = 0 && (y % 100 != 0 || y % 400 = 0)

/-- Number of days in a month. -/
def daysInMonth (y m : Nat) : Nat :=
  if m = 2 then (if isLeap y then 29 else 28)
  else if m = 4 || m = 6 || m = 9 || m = 11 then 30
  else 31

/-- Validity of a year/month/day triple. -/
def validYMD (y m d : Nat) : Bool :=
  1 ≤ m && m ≤ 12 && 1 ≤ d && d ≤ daysInMonth y m

/-- Splitting a character list on a separator (`str.split(sep)`). -/
def splitChar (sep : Char) : List Char → List (List Char)
  | [] => [[]]
  | c :: cs =>
      let rest := splitChar sep cs
      if c == sep then [] :: rest
      else
        match rest with
        | h :: t => (c :: h) :: t
        | [] => [[c]]

/-- Decimal value of a nonempty all-digit character list, `none` otherwise. -/
def digitsToNat : List Char → Option Nat
  | [] => none
  | l =>
      if l.all Char.isDigit then
        some (l.foldl (fun acc c => acc * 10 + (c.toNat - 48)) 0)
      else none

/-- Model of `pd.to_datetime` on a free-text value, for the slash-separated
all-numeric grammar `a/b/c` (year last).  dateutil's default resolution
(`dayfirst=False`) takes `a` as the month when `a ≤ 12`; otherwise `b` is the
month when `b ≤ 12`; otherwise the parse fails.  An invalid resolved date or
a text outside the grammar coerces to NaT (`none`).  The result is
`(year, month, day)`. -/
def toDatetimeText (s : String) : Option (Nat × Nat × Nat) :=
  match (splitChar '/' s.data).map digitsToNat with
  | [some a, some b, some c] =>
      if 1 ≤ a && a ≤ 12 then
        if validYMD c a b then some (c, a, b) else none
      else if 1 ≤ b && b ≤ 12 then
        if validYMD c b a then some (c, b, a) else none
      else none
  | _ => none

/-- Day index of a Gregorian calendar date, relative to 1970-01-01
(the standard civil-from-days correspondence). -/
def daysFromCivil (y m d : Int) : Int :=
  let yy : Int := if m ≤ 2 then y - 1 else y
  let era : Int := yy.fdiv 400
  let yoe : Int := yy - era * 400
  let mp : Int := (m + 9).emod 12
  let doy : Int := (153 * mp + 2).fdiv 5 + d - 1
  let doe : Int := yoe * 365 + yoe.fdiv 4 - yoe.fdiv 100 + doy
  era * 146097 + doe - 719468

/-- Nanoseconds per day: numeric cells handed to `pd.to_datetime` are read
as epoch nanoseconds (pandas' default unit). -/
def nsPerDay : Int := 86400000000000

/-- Model of `pd.to_datetime(_, errors='coerce')` on one cell: dates pass
through, text is parsed (failures coerce to NaT), numbers are taken as epoch
nanoseconds, and missing values stay missing. -/
def toDatetimeCell (cell : Cell) : Cell :=
  match cell with
  | Cell.date d => Cell.date d
  | Cell.text s =>
      match toDatetimeText s with
      | some (y, m, d) => Cell.date (daysFromCivil y m d)
      | none => Cell.blank
  | Cell.num v => Cell.date (v.fdiv nsPerDay)
  | Cell.blank => Cell.blank

/-- Normalization of one column in place:
`df[c] = pd.to_datetime(df[c], errors='coerce')`. -/
def normalizeCol (t : Table) (c : String) : Table :=
  setCol t c (fun r => toDatetimeCell (cellAt t r c))

/-! ## SLA evaluator (src/app.py lines 12, 150-175) -/

/-- `SLA_DAYS` (src/app.py line 12). -/
def SLA_DAYS : List (String × Int) :=
  [("STILLS", 2), ("MODEL", 2), ("MANNEQUIN", 2)]

/-- Dictionary lookup `SLA_DAYS[key]` (the keys used are always present). -/
def slaDaysFor (key : String) : Int :=
  ((SLA_DAYS.find? (fun p => p.1 = key)).map Prod.snd).getD 0

/-- `sla_mapping` (src/app.py lines 150-154): category name, photo-date
column, upload-date column. -/
def slaMapping : List (String × String × String) :=
  [("Stills", "Photo Still Date", "Still Upload Date"),
   ("Model", "Photo Model Date", "Model Upload Date"),
   ("Mannequin", "Photo Mannequin Date", "Mannequin Upload Date")]

/-- The eight derived columns initialized to NaN (src/app.py lines 133-140). -/
def newCols : List String :=
  ["Stills Out of SLA", "Day(s) out of SLA - STILLS",
   "Model Out of SLA", "Day(s) out of SLA - MODEL",
   "Mannequin Out of SLA", "Day(s) out of SLA - MANNEQUIN",
   "Notes", "Days in Studio"]

/-- Date payload of a normalized cell (`pd.notna` on a column that has been
through `pd.to_datetime` holds exactly on date cells). -/
def cellToDate (c : Cell) : Option Int :=
  match c with
  | Cell.date d => some d
  | _ => none

/-- Per-record, per-category SLA computation (src/app.py lines 159-175, on
the path where both columns exist): `effective_end = end.fillna(today)`,
`days_diff = working_days_diff(photo, effective_end)` (NaN when the photo
date is NaN), `out = np.maximum(days_diff - allowance, 0)` (NaN propagates
through `np.maximum`), flag `np.where(out > 0, "LATE", "")` (NaN compares
false, giving the empty string).  Returns (overage, flag). -/
def slaEval (allowance today : Int) (photo upload : Option Int) :
    Option Int × String :=
  let effectiveEnd : Int :=
    match upload with
    | some u => u
    | none => today
  let daysDiff : Option Int := workingDaysDiff photo (some effectiveEnd)
  let outDays : Option Int := daysDiff.map (fun v => max (v - allowance) 0)
  let flag : String :=
    match outDays with
    | some v => if 0 < v then "LATE" else ""
    | none => ""
  (outDays, flag)

/-- Failure modes of the engine: a missing scan-in column stops the run
(src/app.py lines 119-121), and a category whose photo column exists while
its upload column does not crashes the SLA loop (src/app.py lines 160-162
set `end = pd.NaT`, a scalar, and call `.fillna` on it, which raises). -/
inductive EngineErr where
  | noScanIn
  | slaUploadMissing
deriving DecidableEq, Repr

/-- One pass of the SLA loop body for a single category
(src/app.py lines 156-175). -/
def slaCatStep (today : Int) (cat photoCol uploadCol : String) (t : Table) :
    Except EngineErr Table :=
  if t.cols.contains photoCol then
    if t.cols.contains uploadCol then
      let catUpper := String.mk (cat.data.map upperCh)
      let t1 := setCol t ("Day(s) out of SLA - " ++ catUpper) (fun r =>
        match (slaEval (slaDaysFor catUpper) today
            (cellToDate (cellAt t r photoCol))
            (cellToDate (cellAt t r uploadCol))).1 with
        | some v => Cell.num v
        | none => Cell.blank)
      let t2 := setCol t1 (cat ++ " Out of SLA") (fun r =>
        Cell.text (slaEval (slaDaysFor catUpper) today
            (cellToDate (cellAt t1 r photoCol))
            (cellToDate (cellAt t1 r uploadCol))).2)
      Except.ok t2
    else Except.error EngineErr.slaUploadMissing
  else Except.ok t

/-- The table produced by one SLA-loop pass when both columns exist: the
overage column then the flag column are assigned (src/app.py lines 164-175).
The body mirrors the ok-branch of `slaCatStep` exactly. -/
def catStepTable (today : Int) (cat photoCol uploadCol : String)
    (t : Table) : Table :=
  let catUpper := String.mk (cat.data.map upperCh)
  let t1 := setCol t ("Day(s) out of SLA - " ++ catUpper) (fun r =>
    match (slaEval (slaDaysFor catUpper) today
        (cellToDate (cellAt t r photoCol))
        (cellToDate (cellAt t r uploadCol))).1 with
    | some v => Cell.num v
    | none => Cell.blank)
  setCol t1 (cat ++ " Out of SLA") (fun r =>
    Cell.text (slaEval (slaDaysFor catUpper) today
        (cellToDate (cellAt t1 r photoCol))
        (cellToDate (cellAt t1 r uploadCol))).2)

/-- The SLA loop over the three categories (src/app.py lines 156-175). -/
def slaLoopStep (today : Int) (t : Table) : Except EngineErr Table :=
  slaMapping.foldl
    (fun acc entry => do
      let tb ← acc
      slaCatStep today entry.1 entry.2.1 entry.2.2 tb)
    (Except.ok t)

/-! ## Advisory note (src/app.py lines 180-183) -/

/-- The "Awaiting model shot" note: only when both a "Photo Still Date"
column and a scan-out column exist, rows whose scan-out is NaT, whose stills
photo date is known, and whose business-day distance to today exceeds 2 get
the note; all other rows keep their current Notes value. -/
def notesStep (today : Int) (scanOutCol : Option String) (t : Table) : Table :=
  match scanOutCol with
  | some oc =>
      if t.cols.contains "Photo Still Date" then
        setCol t "Notes" (fun r =>
          if cellAt t r oc = Cell.blank then
            match cellToDate (cellAt t r "Photo Still Date") with
            | some p =>
                if 2 < busdayCount p today then Cell.text "Awaiting model shot"
                else cellAt t r "Notes"
            | none => cellAt t r "Notes"
          else cellAt t r "Notes")
      else t
  | none => t

/-! ## Studio-residency classifier (src/app.py lines 188-207) -/

/-- `shot_cols` (src/app.py lines 192-195). -/
def shotCols : List String :=
  ["Photo Still Date", "Photo Model Date", "Photo Mannequin Date",
   "Still Upload Date", "Model Upload Date", "Mannequin Upload Date"]

/-- `compute_days_in_studio` (src/app.py lines 188-205) on the row's
extracted fields: scan-in date, scan-out date (absent column ⇒ `none`), and
the six shot/upload cells.  The branches are tried in order. -/
def computeDaysInStudio (today : Int) (scanIn scanOut : Option Int)
    (shotCells : List Cell) : Cell :=
  let allBlank := shotCells.all (fun c => decide (c = Cell.blank))
  if scanIn.isSome && scanOut.isSome && allBlank then
    Cell.text "SCANNED OUT AND NEVER SHOT"
  else if scanOut.isSome then Cell.text "SCANNED OUT"
  else
    match scanIn with
    | some si => Cell.num (busdayCount si today)
    | none => Cell.blank

/-- `df['Days in Studio'] = df.apply(compute_days_in_studio, axis=1)`
(src/app.py line 207). -/
def daysInStudioStep (today : Int) (scanCol : String)
    (scanOutCol : Option String) (t : Table) : Table :=
  setCol t "Days in Studio" (fun r =>
    computeDaysInStudio today
      (cellToDate (cellAt t r scanCol))
      (match scanOutCol with
       | some oc => cellToDate (cellAt t r oc)
       | none => none)
      (shotCols.map (fun c => cellAt t r c)))

/-! ## Status aggregator (src/app.py lines 212-213) -/

/-- `sla_cols` (src/app.py line 212). -/
def slaCols : List String :=
  ["Stills Out of SLA", "Model Out of SLA", "Mannequin Out of SLA"]

/-- The row lambda of line 213: `"LATE" if "LATE" in r.values else ""`. -/
def slaStatusRow (t : Table) (r : Row) : String :=
  if (slaCols.map (fun c => cellAt t r c)).contains (Cell.text "LATE")
  then "LATE" else ""

/-- `df["SLA status"] = …` (src/app.py lines 212-213). -/
def slaStatusStep (t : Table) : Table :=
  setCol t "SLA status" (fun r => Cell.text (slaStatusRow t r))

/-! ## The engine (src/app.py lines 111-213)

Everything from the column pruning to the SLA summary column, i.e. the whole
transformation applied to a successfully loaded dataframe.  The two failure
modes abort the run: scan-in resolution failure stops with an error message
(`st.stop`), and a present photo column with an absent upload column raises
out of the script. -/

/-- `for col in new_cols: df[col] = np.nan` (src/app.py lines 139-140). -/
def initNewCols (t : Table) : Table :=
  newCols.foldl (fun acc c => setCol acc c (fun _ => Cell.blank)) t

/-- Whether a column name case-insensitively contains "date"
(src/app.py line 144). -/
def dateName (c : String) : Bool := hasSub "date".data (lowerStr c)

/-- The date-normalization loop (src/app.py lines 143-145): every column
whose name case-insensitively contains "date" goes through
`pd.to_datetime(…, errors='coerce')`. -/
def normalizeDateCols (t : Table) : Table :=
  t.cols.foldl (fun acc c => if dateName c then normalizeCol acc c else acc) t

/-- The nine columns the engine writes: the eight NaN-initialized ones and
the final summary column. -/
def derivedCols : List String := newCols ++ ["SLA status"]

/-- Normalization of the scan-in column and the mandatory filter dropping
the rows whose scan-in date failed to parse (src/app.py lines 123-124). -/
def scanFiltered (t1 : Table) (s : String) : Table :=
  let t2 := normalizeCol t1 s
  filterRows t2 (fun r => !decide (cellAt t2 r s = Cell.blank))

/-- Normalization of the scan-out column when one exists
(src/app.py lines 126-128). -/
def scanOutNormalized (t3 : Table) : Table :=
  match findScanOut t3.cols with
  | some oc => normalizeCol t3 oc
  | none => t3

/-- The scan-in resolution, normalization and mandatory filter
(src/app.py lines 118-124) followed by everything downstream. -/
def engineWithScan (today : Int) (s : String) (t1 : Table) :
    Except EngineErr Table :=
  match slaLoopStep today
      (normalizeDateCols (initNewCols (scanOutNormalized
        (scanFiltered t1 s)))) with
  | Except.error e => Except.error e
  | Except.ok t7 =>
      Except.ok (slaStatusStep (daysInStudioStep today s
        (findScanOut (scanFiltered t1 s).cols)
        (notesStep today (findScanOut (scanFiltered t1 s).cols) t7)))

/-- The SLA evaluation engine (src/app.py lines 111-213). -/
def engine (today : Int) (t : Table) : Except EngineErr Table :=
  match findScanIn (pruneTable t).cols with
  | none => Except.error EngineErr.noScanIn
  | some s => engineWithScan today s (pruneTable t)

/-- The rows of the pruned table whose scan-in cell survives normalization:
exactly the records the mandatory filter keeps. -/
def keptRows (t1 : Table) (s : String) : List Row :=
  t1.rows.filter
    (fun r => !decide (toDatetimeCell (cellAt t1 r s) = Cell.blank))

/-! ## Symbolic views of the engine's intermediate values

The following definitions name, for a pruned table `t1`, scan-in column `s`
and scan-out resolution `o`, the value each stage of the engine computes for
a kept row `r`.  They are used to state and prove the global
characterization of a successful run. -/

/-- The table reaching the SLA loop: normalized scan columns, NaN-filled
derived columns, normalized date columns (src/app.py lines 123-145). -/
def preSla (t1 : Table) (s : String) : Table :=
  normalizeDateCols (initNewCols (scanOutNormalized (scanFiltered t1 s)))

/-- Value of column `x` for kept row `r` once all normalization ran: blank
outside the table, normalized for date-named and scan columns, raw
otherwise. -/
def normVal (t1 : Table) (s : String) (o : Option String) (r : Row)
    (x : String) : Cell :=
  if x ∈ t1.cols then
    (if dateName x = true ∨ x = s ∨ o = some x then toDatetimeCell (r x)
     else r x)
  else Cell.blank

/-- The whole normalized row as stored after the date loop: the derived
columns are blank, every other column holds `normVal`. -/
def normRow (t1 : Table) (s : String) (o : Option String) (r : Row) : Row :=
  fun x =>
    if x ∈ newCols then Cell.blank
    else if x ∈ t1.cols ∧ (dateName x = true ∨ x = s ∨ o = some x) then
      toDatetimeCell (r x)
    else r x

/-- Flag cell of one category: blank when the photo column is absent
(the loop skips the category and the NaN from the initialization stays),
otherwise the flag of `slaEval` on the normalized photo/upload cells. -/
def catFlagView (al today : Int) (t1 : Table) (s : String)
    (o : Option String) (pc uc : String) (r : Row) : Cell :=
  if pc ∈ t1.cols then
    Cell.text (slaEval al today (cellToDate (normVal t1 s o r pc))
      (cellToDate (normVal t1 s o r uc))).2
  else Cell.blank

/-- Overage cell of one category: blank when the photo column is absent or
the photo date unknown, otherwise the clamped overage. -/
def catOverView (al today : Int) (t1 : Table) (s : String)
    (o : Option String) (pc uc : String) (r : Row) : Cell :=
  if pc ∈ t1.cols then
    match (slaEval al today (cellToDate (normVal t1 s o r pc))
        (cellToDate (normVal t1 s o r uc))).1 with
    | some v => Cell.num v
    | none => Cell.blank
  else Cell.blank

/-- The row as stored after the SLA loop: the six flag/overage columns hold
the category views, everything else still holds the normalized row. -/
def slaRow (today : Int) (t1 : Table) (s : String) (o : Option String)
    (r : Row) : Row :=
  fun x =>
    if x = "Stills Out of SLA" then
      catFlagView (slaDaysFor "STILLS") today t1 s o "Photo Still Date"
        "Still Upload Date" r
    else if x = "Day(s) out of SLA - STILLS" then
      catOverView (slaDaysFor "STILLS") today t1 s o "Photo Still Date"
        "Still Upload Date" r
    else if x = "Model Out of SLA" then
      catFlagView (slaDaysFor "MODEL") today t1 s o "Photo Model Date"
        "Model Upload Date" r
    else if x = "Day(s) out of SLA - MODEL" then
      catOverView (slaDaysFor "MODEL") today t1 s o "Photo Model Date"
        "Model Upload Date" r
    else if x = "Mannequin Out of SLA" then
      catFlagView (slaDaysFor "MANNEQUIN") today t1 s o
        "Photo Mannequin Date" "Mannequin Upload Date" r
    else if x = "Day(s) out of SLA - MANNEQUIN" then
      catOverView (slaDaysFor "MANNEQUIN") today t1 s o
        "Photo Mannequin Date" "Mannequin Upload Date" r
    else normRow t1 s o r x

/-- The Notes cell of a kept row: the advisory note fires only when a
scan-out column exists, the "Photo Still Date" column exists, the scan-out
cell is blank and the stills photo date is more than two business days in
the past; otherwise the NaN from the initialization stays. -/
def notesView (today : Int) (t1 : Table) (s : String) (o : Option String)
    (r : Row) : Cell :=
  match o with
  | some oc =>
      if "Photo Still Date" ∈ t1.cols then
        (if normVal t1 s o r oc = Cell.blank then
          match cellToDate (normVal t1 s o r "Photo Still Date") with
          | some p =>
              if 2 < busdayCount p today then Cell.text "Awaiting model shot"
              else Cell.blank
          | none => Cell.blank
         else Cell.blank)
      else Cell.blank
  | none => Cell.blank

/-- The Days-in-Studio cell of a kept row. -/
def disView (today : Int) (t1 : Table) (s : String) (o : Option String)
    (r : Row) : Cell :=
  computeDaysInStudio today (cellToDate (normVal t1 s o r s))
    (match o with
     | some oc => cellToDate (normVal t1 s o r oc)
     | none => none)
    (shotCols.map (fun c => normVal t1 s o r c))

/-- The aggregate status cell of a kept row. -/
def statusView (today : Int) (t1 : Table) (s : String) (o : Option String)
    (r : Row) : Cell :=
  Cell.text
    (if ([catFlagView (slaDaysFor "STILLS") today t1 s o "Photo Still Date"
            "Still Upload Date" r,
          catFlagView (slaDaysFor "MODEL") today t1 s o "Photo Model Date"
            "Model Upload Date" r,
          catFlagView (slaDaysFor "MANNEQUIN") today t1 s o
            "Photo Mannequin Date" "Mannequin Upload Date" r]
         : List Cell).contains (Cell.text "LATE")
     then "LATE" else "")

end RetouchSLA

namespace RetouchSLA

/-- A row literal built from an association list; unlisted columns are NaN. -/
def mkRow (l : List (String × Cell)) : Row := fun c =>
  ((l.find? (fun p => p.1 = c)).map Prod.snd).getD Cell.blank

/-- Fallback table for extracting the payload of an `Except` result. -/
def emptyTable : Table := { cols := [], rows := [] }

/-- Payload of an engine result (`emptyTable` when the run aborted). -/
def okTable (r : Except EngineErr Table) : Table :=
  match r with
  | Except.ok u => u
  | Except.error _ => emptyTable

/-- Sample input: junk columns at the pruned positions 0, 2, 3; scan-in at
position 1 and the stills pair at positions 4-5 survive the pruning.
Day 4 is Monday 1970-01-05; day 11 is the following Monday. -/
def tSample : Table :=
  { cols := ["J0", "Scan In Date", "J2", "J3", "Photo Still Date",
             "Still Upload Date"]
    rows := [mkRow [("Scan In Date", Cell.date 4),
                    ("Photo Still Date", Cell.date 4)]] }

/-- Output of the engine on `tSample` with today = day 11. -/
def tSampleOut : Table := okTable (engine 11 tSample)

/-- Sample input whose stills photo column survives the pruning while its
upload column does not exist at all. -/
def tMissingUpload : Table :=
  { cols := ["J0", "Scan In Date", "J2", "J3", "Photo Still Date"]
    rows := [mkRow [("Scan In Date", Cell.date 4),
                    ("Photo Still Date", Cell.date 4)]] }

/-- Sample input whose stills photo column sits at position 1: after the
first run it lands at position 0 of the output, which the second run's
positional pruning deletes. -/
def t9ex : Table :=
  { cols := ["J0", "Photo Still Date", "J2", "J3", "Scan In Date",
             "Still Upload Date"]
    rows := [mkRow [("Photo Still Date", Cell.date 4),
                    ("Scan In Date", Cell.date 4)]] }

/-- Sample input for which a second run is stable: the scan-in column sits at
position 1 both of the pruned input and of the output. -/
def w9t : Table :=
  { cols := ["J0", "JB", "J2", "J3", "Scan In Date"], rows := [] }

/-- The full output row of a successful run: summary, days-in-studio and
notes on top of the SLA-loop row. -/
def outRow (today : Int) (t1 : Table) (s : String) (o : Option String)
    (r : Row) : Row :=
  fun x =>
    if x = "SLA status" then statusView today t1 s o r
    else if x = "Days in Studio" then disView today t1 s o r
    else if x = "Notes" then notesView today t1 s o r
    else slaRow today t1 s o r x

/-! ## Basic table lemmas -/

theorem setCol_rows_length (t : Table) (c : String) (f : Row → Cell) :
    (setCol t c f).rows.length = t.rows.length := by
  simp [setCol]

theorem mem_setCol_cols (t : Table) (c : String) (f : Row → Cell)
    (x : String) :
    x ∈ (setCol t c f).cols ↔ (x ∈ t.cols ∨ x = c) := by
  unfold setCol
  by_cases hc : t.cols.contains c
  · rw [if_pos hc]
    constructor
    · exact Or.inl
    · rintro (h | rfl)
      · exact h
      · simpa using hc
  · rw [if_neg hc]
    simp

theorem contains_eq_true_iff (l : List String) (x : String) :
    l.contains x = true ↔ x ∈ l := by simp

theorem cellAt_congr (t t' : Table) (r : Row) (x : String)
    (h : x ∈ t.cols ↔ x ∈ t'.cols) : cellAt t r x = cellAt t' r x := by
  unfold cellAt
  by_cases hx : x ∈ t.cols
  · rw [if_pos (by simpa using hx), if_pos (by simpa using h.mp hx)]
  · rw [if_neg (by simpa using hx), if_neg (by simpa using fun hh => hx (h.mpr hh))]

theorem cellAt_setCol (t : Table) (c : String) (f : Row → Cell)
    (r : Row) (x : String) :
    cellAt (setCol t c f) (fun y => if y = c then f r else r y) x
      = if x = c then f r else cellAt t r x := by
  unfold cellAt
  by_cases hx : x = c
  · subst hx
    rw [if_pos (by simpa using (mem_setCol_cols t x f x).mpr (Or.inr rfl))]
    simp
  · have hmem : x ∈ (setCol t c f).cols ↔ x ∈ t.cols := by
      rw [mem_setCol_cols]
      exact ⟨fun h => h.resolve_right hx, Or.inl⟩
    rw [if_neg hx]
    by_cases hc : x ∈ t.cols
    · rw [if_pos (by simpa using hmem.mpr hc), if_pos (by simpa using hc)]
      simp [hx]
    · rw [if_neg (by simpa using fun hh => hc (hmem.mp hh)),
        if_neg (by simpa using hc)]

theorem colVals_setCol (t : Table) (c : String) (f : Row → Cell)
    (x : String) :
    colVals (setCol t c f) x
      = if x = c then t.rows.map f else colVals t x := by
  have hrows : (setCol t c f).rows
      = t.rows.map (fun r => fun y => if y = c then f r else r y) := rfl
  unfold colVals
  rw [hrows, List.map_map]
  by_cases hx : x = c
  · subst hx
    rw [if_pos rfl]
    apply List.map_congr_left
    intro r _
    simpa using cellAt_setCol t x f r x
  · rw [if_neg hx]
    apply List.map_congr_left
    intro r _
    simpa [hx] using cellAt_setCol t c f r x

theorem allRows_setCol (t : Table) (c : String) (f : Row → Cell) (x : String)
    (hx : x ≠ c) (P : Cell → Prop)
    (h : ∀ r ∈ t.rows, P (cellAt t r x)) :
    ∀ r ∈ (setCol t c f).rows, P (cellAt (setCol t c f) r x) := by
  intro r' hr'
  obtain ⟨r, hr, rfl⟩ := List.mem_map.mp hr'
  rw [cellAt_setCol t c f r x, if_neg hx]
  exact h r hr

theorem mem_dropColsByName_cols (t : Table) (names : List String)
    (x : String) :
    x ∈ (dropColsByName t names).cols ↔ (x ∈ t.cols ∧ x ∉ names) := by
  unfold dropColsByName
  simp

theorem colVals_dropColsByName (t : Table) (names : List String) (x : String)
    (hx : x ∉ names) :
    colVals (dropColsByName t names) x = colVals t x := by
  unfold colVals
  apply List.map_congr_left
  intro r _
  apply cellAt_congr
  rw [mem_dropColsByName_cols]
  exact ⟨fun h => h.1, fun h => ⟨h, hx⟩⟩

theorem dropColsByName_rows (t : Table) (names : List String) :
    (dropColsByName t names).rows = t.rows := rfl

theorem filterRows_cols (t : Table) (p : Row → Bool) :
    (filterRows t p).cols = t.cols := rfl

theorem cellAt_filterRows (t : Table) (p : Row → Bool) (r : Row)
    (x : String) : cellAt (filterRows t p) r x = cellAt t r x := rfl

theorem colVals_normalizeCol (t : Table) (c x : String) :
    colVals (normalizeCol t c) x
      = if x = c then (colVals t c).map toDatetimeCell else colVals t x := by
  unfold normalizeCol
  rw [colVals_setCol]
  by_cases hx : x = c
  · subst hx
    rw [if_pos rfl, if_pos rfl]
    unfold colVals
    rw [List.map_map]
    rfl
  · rw [if_neg hx, if_neg hx]

theorem mem_normalizeCol_cols (t : Table) (c x : String) :
    x ∈ (normalizeCol t c).cols ↔ (x ∈ t.cols ∨ x = c) :=
  mem_setCol_cols t c _ x

theorem normalizeCol_rows_length (t : Table) (c : String) :
    (normalizeCol t c).rows.length = t.rows.length :=
  setCol_rows_length t c _

/-! ## Business-day lemmas -/

theorem busdaysBetween_zero (s : Int) : busdaysBetween s 0 = 0 := rfl

theorem busdayCount_self (d : Int) : busdayCount d d = 0 := by
  unfold busdayCount
  rw [if_pos le_rfl, sub_self]
  rfl

theorem busdaysBetween_seven (d : Int) : busdaysBetween d 7 = 5 := by
  have h7 : List.range 7 = [0, 1, 2, 3, 4, 5, 6] := by decide
  unfold busdaysBetween
  rw [h7]
  have hr0 : 0 ≤ d % 7 := Int.emod_nonneg d (by decide)
  have hr7 : d % 7 < 7 := Int.emod_lt_of_pos d (by decide)
  obtain ⟨k, hk⟩ : ∃ k, d = d % 7 + k * 7 :=
    ⟨d / 7, by have h := Int.emod_add_ediv d 7; linarith⟩
  have hcong : ∀ i ∈ ([0, 1, 2, 3, 4, 5, 6] : List Nat),
      weekdayMF (d + (i : Int)) = weekdayMF (d % 7 + (i : Int)) := by
    intro i _
    simp only [weekdayMF]
    rw [decide_eq_decide]
    have h1 : d + (i : Int) + 3 = (d % 7 + (i : Int) + 3) + k * 7 := by
      omega
    rw [h1, Int.add_mul_emod_self]
  rw [List.filter_congr hcong]
  set r := d % 7 with hr
  interval_cases r <;> decide

theorem busdayCount_week (d : Int) : busdayCount d (d + 7) = 5 := by
  unfold busdayCount
  rw [if_pos (by omega)]
  have h : (d + 7 - d).toNat = 7 := by omega
  rw [h, busdaysBetween_seven]
  rfl

theorem busdayCount_nonneg (s e : Int) (h : s ≤ e) : 0 ≤ busdayCount s e := by
  unfold busdayCount
  rw [if_pos h]
  exact Int.natCast_nonneg _

theorem busdayCount_nonpos (s e : Int) (h : e < s) : busdayCount s e ≤ 0 := by
  unfold busdayCount
  rw [if_neg (by omega)]
  simp

/-! ## Normalization and fold lemmas -/

theorem toDatetimeCell_idem (c : Cell) :
    toDatetimeCell (toDatetimeCell c) = toDatetimeCell c := by
  cases c with
  | date d => rfl
  | num v => rfl
  | blank => rfl
  | text s =>
      simp only [toDatetimeCell]
      cases h : toDatetimeText s with
      | none => rfl
      | some ymd => obtain ⟨y, m, d⟩ := ymd; rfl

theorem toDatetimeCell_date_or_blank (c : Cell) :
    (∃ d, toDatetimeCell c = Cell.date d) ∨ toDatetimeCell c = Cell.blank := by
  cases c with
  | date d => exact Or.inl ⟨d, rfl⟩
  | num v => exact Or.inl ⟨_, rfl⟩
  | blank => exact Or.inr rfl
  | text s =>
      simp only [toDatetimeCell]
      cases h : toDatetimeText s with
      | none => exact Or.inr rfl
      | some ymd => obtain ⟨y, m, d⟩ := ymd; exact Or.inl ⟨_, rfl⟩

theorem map_toDatetimeCell_idem (l : List Cell) :
    (l.map toDatetimeCell).map toDatetimeCell = l.map toDatetimeCell := by
  rw [List.map_map]
  apply List.map_congr_left
  intro c _
  exact toDatetimeCell_idem c

/-- Row-level reformulation of a fact about all cells of one column. -/
theorem allCol_iff (t : Table) (x : String) (P : Cell → Prop) :
    (∀ v ∈ colVals t x, P v) ↔ ∀ r ∈ t.rows, P (cellAt t r x) := by
  unfold colVals
  constructor
  · intro h r hr
    exact h _ (List.mem_map.mpr ⟨r, hr, rfl⟩)
  · intro h v hv
    obtain ⟨r, hr, rfl⟩ := List.mem_map.mp hv
    exact h r hr

theorem colVals_setBlankFold (names : List String) (t : Table) (x : String) :
    colVals (names.foldl (fun acc c => setCol acc c (fun _ => Cell.blank)) t) x
      = if x ∈ names then t.rows.map (fun _ => Cell.blank)
        else colVals t x := by
  induction names generalizing t with
  | nil => simp
  | cons c cs ih =>
      simp only [List.foldl_cons]
      rw [ih (setCol t c fun _ => Cell.blank)]
      have hrows : (setCol t c fun _ => Cell.blank).rows.map
          (fun _ => Cell.blank) = t.rows.map (fun _ => Cell.blank) := by
        rw [show (setCol t c fun _ => Cell.blank).rows
            = t.rows.map (fun r x => if x = c then Cell.blank else r x)
            from rfl, List.map_map]
        rfl
      by_cases hx : x ∈ cs
      · rw [if_pos hx, if_pos (by simp [hx]), hrows]
      · rw [if_neg hx, colVals_setCol]
        by_cases hxc : x = c
        · rw [if_pos hxc, if_pos (by simp [hxc])]
        · rw [if_neg hxc, if_neg (by
            intro hmem
            rcases List.mem_cons.mp hmem with h | h
            · exact hxc h
            · exact hx h)]

theorem mem_setBlankFold_cols (names : List String) (t : Table) (x : String) :
    x ∈ (names.foldl (fun acc c => setCol acc c (fun _ => Cell.blank)) t).cols
      ↔ x ∈ t.cols ∨ x ∈ names := by
  induction names generalizing t with
  | nil => simp
  | cons c cs ih =>
      simp only [List.foldl_cons]
      rw [ih (setCol t c fun _ => Cell.blank), mem_setCol_cols]
      constructor
      · rintro ((h | h) | h)
        · exact Or.inl h
        · exact Or.inr (by simp [h])
        · exact Or.inr (by simp [h])
      · rintro (h | h)
        · exact Or.inl (Or.inl h)
        · rcases List.mem_cons.mp h with h | h
          · exact Or.inl (Or.inr h)
          · exact Or.inr h

theorem setBlankFold_rows_length (names : List String) (t : Table) :
    (names.foldl (fun acc c => setCol acc c (fun _ => Cell.blank)) t).rows.length
      = t.rows.length := by
  induction names generalizing t with
  | nil => rfl
  | cons c cs ih =>
      simp only [List.foldl_cons]
      rw [ih (setCol t c fun _ => Cell.blank), setCol_rows_length]

theorem colVals_initNewCols (t : Table) (x : String) :
    colVals (initNewCols t) x
      = if x ∈ newCols then t.rows.map (fun _ => Cell.blank)
        else colVals t x :=
  colVals_setBlankFold newCols t x

theorem mem_initNewCols_cols (t : Table) (x : String) :
    x ∈ (initNewCols t).cols ↔ x ∈ t.cols ∨ x ∈ newCols :=
  mem_setBlankFold_cols newCols t x

theorem initNewCols_rows_length (t : Table) :
    (initNewCols t).rows.length = t.rows.length :=
  setBlankFold_rows_length newCols t

theorem colVals_normFold (l : List String) (t : Table) (x : String) :
    colVals (l.foldl (fun acc c => if dateName c then normalizeCol acc c
        else acc) t) x
      = if x ∈ l ∧ dateName x = true then (colVals t x).map toDatetimeCell
        else colVals t x := by
  induction l generalizing t with
  | nil => simp
  | cons c cs ih =>
      simp only [List.foldl_cons]
      by_cases hc : dateName c = true
      · rw [show (if dateName c then normalizeCol t c else t)
            = normalizeCol t c from by simp [hc]]
        rw [ih (normalizeCol t c), colVals_normalizeCol]
        by_cases hxc : x = c
        · subst hxc
          rw [if_pos (rfl : x = x)]
          have hcond : x ∈ x :: cs ∧ dateName x = true :=
            ⟨List.mem_cons_self x cs, hc⟩
          by_cases hx2 : x ∈ cs ∧ dateName x = true
          · rw [if_pos hx2, if_pos hcond, map_toDatetimeCell_idem]
          · rw [if_neg hx2, if_pos hcond]
        · simp only [if_neg hxc]
          by_cases hx2 : x ∈ cs ∧ dateName x = true
          · rw [if_pos hx2, if_pos ⟨List.mem_cons_of_mem c hx2.1, hx2.2⟩]
          · rw [if_neg hx2, if_neg (by
              rintro ⟨hmem, hdn⟩
              rcases List.mem_cons.mp hmem with h | h
              · exact hxc h
              · exact hx2 ⟨h, hdn⟩)]
      · rw [show (if dateName c then normalizeCol t c else t) = t
            from by simp [hc]]
        rw [ih t]
        by_cases hx : x ∈ cs ∧ dateName x = true
        · rw [if_pos hx, if_pos ⟨List.mem_cons_of_mem c hx.1, hx.2⟩]
        · rw [if_neg hx, if_neg (by
            rintro ⟨hmem, hdn⟩
            rcases List.mem_cons.mp hmem with h | h
            · subst h; exact hc hdn
            · exact hx ⟨h, hdn⟩)]

theorem mem_normFold_cols (l : List String) (t : Table) (x : String) :
    x ∈ (l.foldl (fun acc c => if dateName c then normalizeCol acc c
        else acc) t).cols
      ↔ x ∈ t.cols ∨ (x ∈ l ∧ dateName x = true) := by
  induction l generalizing t with
  | nil => simp
  | cons c cs ih =>
      simp only [List.foldl_cons]
      by_cases hc : dateName c = true
      · rw [show (if dateName c then normalizeCol t c else t)
            = normalizeCol t c from by simp [hc]]
        rw [ih (normalizeCol t c), mem_normalizeCol_cols]
        constructor
        · rintro ((h | h) | ⟨h1, h2⟩)
          · exact Or.inl h
          · exact Or.inr ⟨by simp [h], by rw [h]; exact hc⟩
          · exact Or.inr ⟨List.mem_cons_of_mem c h1, h2⟩
        · rintro (h | ⟨h1, h2⟩)
          · exact Or.inl (Or.inl h)
          · rcases List.mem_cons.mp h1 with h | h
            · exact Or.inl (Or.inr h)
            · exact Or.inr ⟨h, h2⟩
      · rw [show (if dateName c then normalizeCol t c else t) = t
            from by simp [hc]]
        rw [ih t]
        constructor
        · rintro (h | ⟨h1, h2⟩)
          · exact Or.inl h
          · exact Or.inr ⟨List.mem_cons_of_mem c h1, h2⟩
        · rintro (h | ⟨h1, h2⟩)
          · exact Or.inl h
          · rcases List.mem_cons.mp h1 with h | h
            · subst h; exact absurd h2 hc
            · exact Or.inr ⟨h, h2⟩

theorem normFold_rows_length (l : List String) (t : Table) :
    (l.foldl (fun acc c => if dateName c then normalizeCol acc c
        else acc) t).rows.length = t.rows.length := by
  induction l generalizing t with
  | nil => rfl
  | cons c cs ih =>
      simp only [List.foldl_cons]
      by_cases hc : dateName c = true
      · rw [show (if dateName c then normalizeCol t c else t)
            = normalizeCol t c from by simp [hc]]
        rw [ih (normalizeCol t c), normalizeCol_rows_length]
      · rw [show (if dateName c then normalizeCol t c else t) = t
            from by simp [hc]]
        rw [ih t]

theorem colVals_normalizeDateCols (t : Table) (x : String) :
    colVals (normalizeDateCols t) x
      = if x ∈ t.cols ∧ dateName x = true
        then (colVals t x).map toDatetimeCell else colVals t x :=
  colVals_normFold t.cols t x

theorem mem_normalizeDateCols_cols (t : Table) (x : String) :
    x ∈ (normalizeDateCols t).cols ↔ x ∈ t.cols := by
  rw [show (normalizeDateCols t) = t.cols.foldl
      (fun acc c => if dateName c then normalizeCol acc c else acc) t from rfl,
    mem_normFold_cols]
  constructor
  · rintro (h | ⟨h, _⟩) <;> exact h
  · exact Or.inl

theorem normalizeDateCols_rows_length (t : Table) :
    (normalizeDateCols t).rows.length = t.rows.length :=
  normFold_rows_length t.cols t

/-! ## Engine trace lemmas -/

theorem setCol_cols_of_mem (t : Table) (c : String) (f : Row → Cell)
    (h : c ∈ t.cols) : (setCol t c f).cols = t.cols := by
  unfold setCol
  rw [if_pos (by simpa using h)]

theorem scanFiltered_rows (t1 : Table) (s : String) (hs : s ∈ t1.cols) :
    (scanFiltered t1 s).rows
      = (keptRows t1 s).map
          (fun r x => if x = s then toDatetimeCell (cellAt t1 r s)
                      else r x) := by
  unfold scanFiltered filterRows keptRows
  show ((normalizeCol t1 s).rows.filter _) = _
  have hrows : (normalizeCol t1 s).rows
      = t1.rows.map (fun r x =>
          if x = s then toDatetimeCell (cellAt t1 r s) else r x) := rfl
  rw [hrows, List.filter_map]
  congr 1
  apply List.filter_congr
  intro r _
  have h1 : cellAt (normalizeCol t1 s)
      ((fun r x => if x = s then toDatetimeCell (cellAt t1 r s) else r x) r) s
      = toDatetimeCell (cellAt t1 r s) := by
    have h2 := cellAt_setCol t1 s
      (fun r => toDatetimeCell (cellAt t1 r s)) r s
    rw [if_pos rfl] at h2
    exact h2
  simp only [Function.comp]
  rw [h1]

theorem scanFiltered_cols (t1 : Table) (s : String) (hs : s ∈ t1.cols) :
    (scanFiltered t1 s).cols = t1.cols := by
  unfold scanFiltered
  show (normalizeCol t1 s).cols = t1.cols
  exact setCol_cols_of_mem t1 s _ hs

theorem slaCatStep_ok_rows_length (today : Int) (cat pc uc : String)
    (t t' : Table) (h : slaCatStep today cat pc uc t = Except.ok t') :
    t'.rows.length = t.rows.length := by
  unfold slaCatStep at h
  by_cases hp : t.cols.contains pc = true
  · rw [if_pos hp] at h
    by_cases hu : t.cols.contains uc = true
    · rw [if_pos hu] at h
      injection h with h
      subst h
      rw [setCol_rows_length, setCol_rows_length]
    · rw [if_neg hu] at h
      cases h
  · rw [if_neg hp] at h
    injection h with h
    subst h
    rfl

theorem slaLoopStep_bind (today : Int) (t : Table) :
    slaLoopStep today t
      = (((slaCatStep today "Stills" "Photo Still Date" "Still Upload Date"
            t).bind
          (fun tb => slaCatStep today "Model" "Photo Model Date"
            "Model Upload Date" tb)).bind
        (fun tb => slaCatStep today "Mannequin" "Photo Mannequin Date"
          "Mannequin Upload Date" tb)) := rfl

theorem slaLoopStep_ok_rows_length (today : Int) (t t' : Table)
    (h : slaLoopStep today t = Except.ok t') :
    t'.rows.length = t.rows.length := by
  rw [slaLoopStep_bind] at h
  rcases h1 : slaCatStep today "Stills" "Photo Still Date"
      "Still Upload Date" t with e | ta
  · rw [h1] at h; cases h
  rw [h1] at h
  simp only [Except.bind] at h
  rcases h2 : slaCatStep today "Model" "Photo Model Date"
      "Model Upload Date" ta with e | tb
  · rw [h2] at h; cases h
  rw [h2] at h
  simp only [Except.bind] at h
  rw [slaCatStep_ok_rows_length today _ _ _ _ _ h,
    slaCatStep_ok_rows_length today _ _ _ _ _ h2,
    slaCatStep_ok_rows_length today _ _ _ _ _ h1]

theorem notesStep_rows_length (today : Int) (o : Option String) (t : Table) :
    (notesStep today o t).rows.length = t.rows.length := by
  unfold notesStep
  cases o with
  | none => rfl
  | some oc =>
      dsimp only
      by_cases hc : t.cols.contains "Photo Still Date" = true
      · rw [if_pos hc, setCol_rows_length]
      · rw [if_neg hc]

theorem daysInStudioStep_rows_length (today : Int) (s : String)
    (o : Option String) (t : Table) :
    (daysInStudioStep today s o t).rows.length = t.rows.length :=
  setCol_rows_length t _ _

theorem slaStatusStep_rows_length (t : Table) :
    (slaStatusStep t).rows.length = t.rows.length :=
  setCol_rows_length t _ _

theorem engineWithScan_ok_rows_length (today : Int) (s : String)
    (t1 : Table) (u : Table) (hs : s ∈ t1.cols)
    (h : engineWithScan today s t1 = Except.ok u) :
    u.rows.length = (keptRows t1 s).length := by
  unfold engineWithScan at h
  generalize hq : slaLoopStep today
      (normalizeDateCols (initNewCols (scanOutNormalized
        (scanFiltered t1 s)))) = q at h
  cases q with
  | error e => cases h
  | ok t7 =>
  dsimp only at h
  rw [Except.ok.injEq] at h
  subst h
  have h7 := hq
  rw [slaStatusStep_rows_length, daysInStudioStep_rows_length,
    notesStep_rows_length, slaLoopStep_ok_rows_length _ _ _ h7,
    normalizeDateCols_rows_length, initNewCols_rows_length]
  have hso : (scanOutNormalized (scanFiltered t1 s)).rows.length
      = (scanFiltered t1 s).rows.length := by
    unfold scanOutNormalized
    cases findScanOut (scanFiltered t1 s).cols with
    | none => rfl
    | some oc => exact normalizeCol_rows_length _ _
  rw [hso, scanFiltered_rows t1 s hs, List.length_map]

/-! ## Name facts about the fixed column names -/

theorem newCols_not_scanIn : ∀ c ∈ newCols, matchScanIn c = false := by decide

theorem newCols_not_scanOut : ∀ c ∈ newCols, matchScanOut c = false := by
  decide

theorem newCols_not_dateName : ∀ c ∈ newCols, dateName c = false := by decide

theorem statusCol_not_scanIn : matchScanIn "SLA status" = false := by decide

theorem statusCol_not_scanOut : matchScanOut "SLA status" = false := by decide

theorem statusCol_not_dateName : dateName "SLA status" = false := by decide

theorem catCols_dateName :
    ∀ e ∈ slaMapping, dateName e.2.1 = true ∧ dateName e.2.2 = true := by
  decide

theorem catCols_not_scanIn :
    ∀ e ∈ slaMapping, matchScanIn e.2.1 = false ∧ matchScanIn e.2.2 = false := by
  decide

theorem catCols_not_scanOut :
    ∀ e ∈ slaMapping, matchScanOut e.2.1 = false
      ∧ matchScanOut e.2.2 = false := by
  decide

theorem catCols_not_new :
    ∀ e ∈ slaMapping, e.2.1 ∉ newCols ∧ e.2.2 ∉ newCols := by decide

/-! ## Row-level forms of the folds -/

theorem rows_setBlankFold (names : List String) (t : Table) :
    (names.foldl (fun acc c => setCol acc c (fun _ => Cell.blank)) t).rows
      = t.rows.map (fun r x => if x ∈ names then Cell.blank else r x) := by
  induction names generalizing t with
  | nil =>
      show t.rows = _
      have h : (fun (r : Row) (x : String) =>
          if x ∈ ([] : List String) then Cell.blank else r x)
          = fun (r : Row) => r := by
        funext r x
        simp
      rw [h]
      exact (List.map_id t.rows).symm
  | cons c cs ih =>
      simp only [List.foldl_cons]
      rw [ih (setCol t c fun _ => Cell.blank),
        show (setCol t c fun _ => Cell.blank).rows
          = t.rows.map (fun r x => if x = c then Cell.blank else r x)
          from rfl,
        List.map_map]
      apply List.map_congr_left
      intro r _
      funext x
      simp only [Function.comp]
      by_cases hxc : x = c
      · subst hxc
        by_cases hxcs : x ∈ cs <;> simp [hxcs]
      · by_cases hxcs : x ∈ cs <;> simp [hxc, hxcs]

theorem rows_normFold (l : List String) (t : Table)
    (hl : ∀ c ∈ l, c ∈ t.cols) :
    (l.foldl (fun acc c => if dateName c then normalizeCol acc c else acc)
        t).rows
      = t.rows.map (fun r x =>
          if x ∈ l ∧ dateName x = true then toDatetimeCell (r x)
          else r x) := by
  induction l generalizing t with
  | nil =>
      show t.rows = _
      have h : (fun (r : Row) (x : String) =>
          if x ∈ ([] : List String) ∧ dateName x = true
          then toDatetimeCell (r x) else r x) = fun (r : Row) => r := by
        funext r x
        simp
      rw [h]
      exact (List.map_id t.rows).symm
  | cons c cs ih =>
      simp only [List.foldl_cons]
      by_cases hc : dateName c = true
      · rw [show (if dateName c then normalizeCol t c else t)
            = normalizeCol t c from by simp [hc]]
        have hcc : c ∈ t.cols := hl c (List.mem_cons_self c cs)
        have hcols : (normalizeCol t c).cols = t.cols :=
          setCol_cols_of_mem t c _ hcc
        rw [ih (normalizeCol t c) (fun c' hc' => by
          rw [hcols]; exact hl c' (List.mem_cons_of_mem _ hc'))]
        rw [show (normalizeCol t c).rows
            = t.rows.map (fun r x =>
                if x = c then toDatetimeCell (cellAt t r c) else r x)
            from rfl,
          List.map_map]
        apply List.map_congr_left
        intro r _
        funext x
        simp only [Function.comp]
        have hcell : cellAt t r c = r c := by
          unfold cellAt
          rw [if_pos (by simpa using hcc)]
        by_cases hxc : x = c
        · subst hxc
          have hcond : x ∈ x :: cs ∧ dateName x = true :=
            ⟨List.mem_cons_self x cs, hc⟩
          rw [if_pos (rfl : x = x)]
          by_cases hx2 : x ∈ cs ∧ dateName x = true
          · rw [if_pos hx2, if_pos hcond, hcell, toDatetimeCell_idem]
          · rw [if_neg hx2, if_pos hcond, hcell]
        · rw [if_neg hxc]
          by_cases hx2 : x ∈ cs ∧ dateName x = true
          · rw [if_pos hx2, if_pos
              (⟨List.mem_cons_of_mem c hx2.1, hx2.2⟩
                : x ∈ c :: cs ∧ dateName x = true)]
          · rw [if_neg hx2, if_neg (?hneg : ¬(x ∈ c :: cs ∧ dateName x = true))]
            case hneg =>
              rintro ⟨hmem, hdn⟩
              rcases List.mem_cons.mp hmem with h | h
              · exact hxc h
              · exact hx2 ⟨h, hdn⟩
      · rw [show (if dateName c then normalizeCol t c else t) = t
            from by simp [hc]]
        rw [ih t (fun c' hc' => hl c' (List.mem_cons_of_mem _ hc'))]
        apply List.map_congr_left
        intro r _
        funext x
        by_cases hx2 : x ∈ cs ∧ dateName x = true
        · rw [if_pos hx2, if_pos
            (⟨List.mem_cons_of_mem c hx2.1, hx2.2⟩
              : x ∈ c :: cs ∧ dateName x = true)]
        · rw [if_neg hx2, if_neg (?hneg2 : ¬(x ∈ c :: cs ∧ dateName x = true))]
          case hneg2 =>
            rintro ⟨hmem, hdn⟩
            rcases List.mem_cons.mp hmem with h | h
            · subst h; exact hc hdn
            · exact hx2 ⟨h, hdn⟩

/-! ## Characterization of the table reaching the SLA loop -/

theorem scanOutNormalized_cols (t1 : Table) (s : String)
    (hsmem : s ∈ t1.cols) :
    (scanOutNormalized (scanFiltered t1 s)).cols = t1.cols := by
  unfold scanOutNormalized
  cases ho : findScanOut (scanFiltered t1 s).cols with
  | none => exact scanFiltered_cols t1 s hsmem
  | some oc =>
      have hocmem : oc ∈ (scanFiltered t1 s).cols :=
        List.mem_of_find?_eq_some ho
      show (normalizeCol (scanFiltered t1 s) oc).cols = t1.cols
      unfold normalizeCol
      rw [setCol_cols_of_mem _ _ _ hocmem, scanFiltered_cols t1 s hsmem]

theorem preSla_cols_mem (t1 : Table) (s : String) (hsmem : s ∈ t1.cols)
    (x : String) :
    x ∈ (preSla t1 s).cols ↔ x ∈ t1.cols ∨ x ∈ newCols := by
  unfold preSla
  rw [mem_normalizeDateCols_cols, mem_initNewCols_cols,
    scanOutNormalized_cols t1 s hsmem]

theorem findScanOut_scanFiltered (t1 : Table) (s : String)
    (hsmem : s ∈ t1.cols) :
    findScanOut (scanFiltered t1 s).cols = findScanOut t1.cols := by
  rw [scanFiltered_cols t1 s hsmem]

theorem findScanOut_mem (t1 : Table) (oc : String)
    (ho : findScanOut t1.cols = some oc) : oc ∈ t1.cols :=
  List.mem_of_find?_eq_some ho

theorem preSla_rows (t1 : Table) (s : String) (hsmem : s ∈ t1.cols) :
    (preSla t1 s).rows
      = (keptRows t1 s).map (normRow t1 s (findScanOut t1.cols)) := by
  have h3cols : (scanFiltered t1 s).cols = t1.cols :=
    scanFiltered_cols t1 s hsmem
  have h3rows : (scanFiltered t1 s).rows
      = (keptRows t1 s).map
          (fun r x => if x = s then toDatetimeCell (r s) else r x) := by
    rw [scanFiltered_rows t1 s hsmem]
    apply List.map_congr_left
    intro r _
    funext x
    by_cases hx : x = s
    · subst hx
      rw [if_pos rfl, if_pos rfl,
        show cellAt t1 r x = r x from by
          unfold cellAt; rw [if_pos (by simpa using hsmem)]]
    · rw [if_neg hx, if_neg hx]
  have h4cols : (scanOutNormalized (scanFiltered t1 s)).cols = t1.cols :=
    scanOutNormalized_cols t1 s hsmem
  have h4rows : (scanOutNormalized (scanFiltered t1 s)).rows
      = (keptRows t1 s).map (fun r x =>
          if findScanOut t1.cols = some x then
            toDatetimeCell (if x = s then toDatetimeCell (r s) else r x)
          else if x = s then toDatetimeCell (r s) else r x) := by
    unfold scanOutNormalized
    rw [findScanOut_scanFiltered t1 s hsmem]
    cases ho : findScanOut t1.cols with
    | none =>
        rw [h3rows]
        apply List.map_congr_left
        intro r _
        funext x
        rw [if_neg (show ¬((none : Option String) = some x) from
          fun h => Option.noConfusion h)]
    | some oc =>
        have hocmem : oc ∈ t1.cols := findScanOut_mem t1 oc ho
        show (normalizeCol (scanFiltered t1 s) oc).rows = _
        rw [show (normalizeCol (scanFiltered t1 s) oc).rows
            = (scanFiltered t1 s).rows.map (fun r x =>
                if x = oc
                then toDatetimeCell (cellAt (scanFiltered t1 s) r oc)
                else r x) from rfl,
          h3rows, List.map_map]
        apply List.map_congr_left
        intro r _
        funext x
        simp only [Function.comp]
        have hcell : cellAt (scanFiltered t1 s)
            (fun x => if x = s then toDatetimeCell (r s) else r x) oc
            = if oc = s then toDatetimeCell (r s) else r oc := by
          unfold cellAt
          rw [if_pos (by rw [h3cols]; simpa using hocmem)]
        by_cases hx : x = oc
        · subst hx
          rw [if_pos rfl, if_pos rfl, hcell]
        · rw [if_neg hx,
            if_neg (show ¬((some oc : Option String) = some x) from
              fun h => hx (by injection h with h2; exact h2.symm))]
  unfold preSla
  rw [show (normalizeDateCols (initNewCols (scanOutNormalized
        (scanFiltered t1 s))))
      = ((initNewCols (scanOutNormalized (scanFiltered t1 s))).cols.foldl
          (fun acc c => if dateName c then normalizeCol acc c else acc)
          (initNewCols (scanOutNormalized (scanFiltered t1 s)))) from rfl,
    rows_normFold _ _ (fun c hc => hc),
    show (initNewCols (scanOutNormalized (scanFiltered t1 s)))
      = (newCols.foldl (fun acc c => setCol acc c (fun _ => Cell.blank))
          (scanOutNormalized (scanFiltered t1 s))) from rfl,
    rows_setBlankFold, h4rows, List.map_map, List.map_map]
  apply List.map_congr_left
  intro r _
  funext x
  simp only [Function.comp]
  have hmem5 : ∀ y, y ∈ (newCols.foldl
      (fun acc c => setCol acc c (fun _ => Cell.blank))
      (scanOutNormalized (scanFiltered t1 s))).cols
      ↔ y ∈ t1.cols ∨ y ∈ newCols := by
    intro y
    rw [mem_setBlankFold_cols, h4cols]
  by_cases hnew : x ∈ newCols
  · have hdn : dateName x = false := newCols_not_dateName x hnew
    rw [normRow, if_pos hnew, if_pos hnew]
    rw [if_neg (by rintro ⟨_, h2⟩; rw [hdn] at h2; cases h2)]
  · rw [normRow, if_neg hnew, if_neg hnew]
    have hcond : ((x ∈ (newCols.foldl
        (fun acc c => setCol acc c (fun _ => Cell.blank))
        (scanOutNormalized (scanFiltered t1 s))).cols) ∧ dateName x = true)
        ↔ (x ∈ t1.cols ∧ dateName x = true) := by
      rw [hmem5]
      constructor
      · rintro ⟨h1 | h1, h2⟩
        · exact ⟨h1, h2⟩
        · exact absurd h1 hnew
      · rintro ⟨h1, h2⟩
        exact ⟨Or.inl h1, h2⟩
    rw [if_congr hcond rfl rfl]
    by_cases hmem : x ∈ t1.cols
    · by_cases hdn : dateName x = true
      · have hL : x ∈ t1.cols ∧ dateName x = true := ⟨hmem, hdn⟩
        have hR : x ∈ t1.cols
            ∧ (dateName x = true ∨ x = s ∨ findScanOut t1.cols = some x) :=
          ⟨hmem, Or.inl hdn⟩
        rw [if_pos hL, if_pos hR]
        by_cases hoc : findScanOut t1.cols = some x
        · rw [if_pos hoc]
          by_cases hxs : x = s
          · rw [if_pos hxs, toDatetimeCell_idem, toDatetimeCell_idem]
            subst hxs; rfl
          · rw [if_neg hxs, toDatetimeCell_idem]
        · rw [if_neg hoc]
          by_cases hxs : x = s
          · rw [if_pos hxs, toDatetimeCell_idem]
            subst hxs; rfl
          · rw [if_neg hxs]
      · have hL : ¬(x ∈ t1.cols ∧ dateName x = true) := by
          rintro ⟨_, h2⟩; exact hdn h2
        rw [if_neg hL]
        by_cases hoc : findScanOut t1.cols = some x
        · have hR : x ∈ t1.cols
              ∧ (dateName x = true ∨ x = s ∨ findScanOut t1.cols = some x) :=
            ⟨hmem, Or.inr (Or.inr hoc)⟩
          rw [if_pos hoc, if_pos hR]
          by_cases hxs : x = s
          · rw [if_pos hxs, toDatetimeCell_idem]
            subst hxs; rfl
          · rw [if_neg hxs]
        · rw [if_neg hoc]
          by_cases hxs : x = s
          · have hR : x ∈ t1.cols
                ∧ (dateName x = true ∨ x = s ∨ findScanOut t1.cols = some x) :=
              ⟨hmem, Or.inr (Or.inl hxs)⟩
            rw [if_pos hxs, if_pos hR]
            subst hxs; rfl
          · have hR : ¬(x ∈ t1.cols
                ∧ (dateName x = true ∨ x = s ∨ findScanOut t1.cols = some x)) := by
              rintro ⟨_, h2 | h2 | h2⟩
              · exact hdn h2
              · exact hxs h2
              · exact hoc h2
            rw [if_neg hxs, if_neg hR]
    · have hxs : x ≠ s := fun h => hmem (h ▸ hsmem)
      have hoc : ¬ findScanOut t1.cols = some x := fun h =>
        hmem (findScanOut_mem t1 x h)
      have hL : ¬(x ∈ t1.cols ∧ dateName x = true) := by
        rintro ⟨h1, _⟩; exact hmem h1
      have hR : ¬(x ∈ t1.cols
          ∧ (dateName x = true ∨ x = s ∨ findScanOut t1.cols = some x)) := by
        rintro ⟨h1, _⟩; exact hmem h1
      rw [if_neg hL, if_neg hoc, if_neg hxs, if_neg hR]

/-! ## Characterization of the SLA loop -/

theorem cellAt_eq_of_cols_eq (t t' : Table) (h : t.cols = t'.cols)
    (r : Row) (x : String) : cellAt t r x = cellAt t' r x := by
  unfold cellAt
  rw [h]

/-- Reading an undervied column from any stage whose columns are the pruned
columns plus the derived ones, through a row that still holds the normalized
value, yields the normalized view. -/
theorem read_normVal (t1 : Table) (s : String) (o : Option String) (r : Row)
    (x : String) (T : Table)
    (hT : x ∈ T.cols ↔ x ∈ t1.cols ∨ x ∈ newCols)
    (ρ : Row) (hρ : ρ x = normRow t1 s o r x) (hx : x ∉ newCols) :
    cellAt T ρ x = normVal t1 s o r x := by
  unfold cellAt
  by_cases hmem : x ∈ t1.cols
  · rw [if_pos (by simpa using hT.mpr (Or.inl hmem)), hρ]
    unfold normRow normVal
    rw [if_neg hx, if_pos hmem]
    by_cases hd : dateName x = true ∨ x = s ∨ o = some x
    · rw [if_pos ⟨hmem, hd⟩, if_pos hd]
    · rw [if_neg (by rintro ⟨_, h2⟩; exact hd h2), if_neg hd]
  · rw [if_neg (by
        intro hc
        rcases hT.mp (by simpa using hc) with h | h
        · exact hmem h
        · exact hx h)]
    unfold normVal
    rw [if_neg hmem]

theorem slaCatStep_absent (today : Int) (cat pc uc : String) (t : Table)
    (hp : pc ∉ t.cols) : slaCatStep today cat pc uc t = Except.ok t := by
  unfold slaCatStep
  rw [if_neg (by simpa using hp)]

theorem slaCatStep_present (today : Int) (cat pc uc : String) (t : Table)
    (hp : pc ∈ t.cols) (hu : uc ∈ t.cols) :
    slaCatStep today cat pc uc t
      = Except.ok (catStepTable today cat pc uc t) := by
  unfold slaCatStep catStepTable
  rw [if_pos (by simpa using hp), if_pos (by simpa using hu)]

theorem catStepTable_cols (today : Int) (cat pc uc : String) (t : Table)
    (hoc : ("Day(s) out of SLA - " ++ String.mk (cat.data.map upperCh))
      ∈ t.cols)
    (hfc : (cat ++ " Out of SLA") ∈ t.cols) :
    (catStepTable today cat pc uc t).cols = t.cols := by
  unfold catStepTable
  have hcols1 : (setCol t
      ("Day(s) out of SLA - " ++ String.mk (cat.data.map upperCh))
      (fun r =>
        match (slaEval
            (slaDaysFor (String.mk (cat.data.map upperCh))) today
            (cellToDate (cellAt t r pc))
            (cellToDate (cellAt t r uc))).1 with
        | some v => Cell.num v
        | none => Cell.blank)).cols = t.cols :=
    setCol_cols_of_mem t _ _ hoc
  rw [setCol_cols_of_mem _ _ _ (by rw [hcols1]; exact hfc), hcols1]

theorem catStepTable_rows (today : Int) (cat pc uc : String) (t : Table)
    (hpo : pc ≠ "Day(s) out of SLA - " ++ String.mk (cat.data.map upperCh))
    (huo : uc ≠ "Day(s) out of SLA - " ++ String.mk (cat.data.map upperCh)) :
    (catStepTable today cat pc uc t).rows
      = t.rows.map (fun r x =>
          if x = cat ++ " Out of SLA" then
            Cell.text (slaEval
              (slaDaysFor (String.mk (cat.data.map upperCh))) today
              (cellToDate (cellAt t r pc)) (cellToDate (cellAt t r uc))).2
          else if x = ("Day(s) out of SLA - "
              ++ String.mk (cat.data.map upperCh)) then
            (match (slaEval
                (slaDaysFor (String.mk (cat.data.map upperCh))) today
                (cellToDate (cellAt t r pc))
                (cellToDate (cellAt t r uc))).1 with
             | some v => Cell.num v
             | none => Cell.blank)
          else r x) := by
  unfold catStepTable
  rw [show (setCol (setCol t
      ("Day(s) out of SLA - " ++ String.mk (cat.data.map upperCh)) _)
      (cat ++ " Out of SLA") _).rows
      = ((t.rows.map _).map _) from rfl, List.map_map]
  apply List.map_congr_left
  intro r _
  funext x
  simp only [Function.comp]
  by_cases hxf : x = cat ++ " Out of SLA"
  · rw [if_pos hxf, if_pos hxf]
    rw [show cellAt (setCol t
        ("Day(s) out of SLA - " ++ String.mk (cat.data.map upperCh)) _)
        (fun y => if y = ("Day(s) out of SLA - "
            ++ String.mk (cat.data.map upperCh)) then _ else r y) pc
        = if pc = ("Day(s) out of SLA - "
            ++ String.mk (cat.data.map upperCh)) then _
          else cellAt t r pc from cellAt_setCol t _ _ r pc,
      if_neg hpo,
      show cellAt (setCol t
        ("Day(s) out of SLA - " ++ String.mk (cat.data.map upperCh)) _)
        (fun y => if y = ("Day(s) out of SLA - "
            ++ String.mk (cat.data.map upperCh)) then _ else r y) uc
        = if uc = ("Day(s) out of SLA - "
            ++ String.mk (cat.data.map upperCh)) then _
          else cellAt t r uc from cellAt_setCol t _ _ r uc,
      if_neg huo]
  · rw [if_neg hxf, if_neg hxf]

theorem slaLoop_preSla (today : Int) (t1 : Table) (s : String)
    (hsmem : s ∈ t1.cols)
    (hpair : ∀ e ∈ slaMapping, e.2.1 ∈ t1.cols → e.2.2 ∈ t1.cols) :
    ∃ t7, slaLoopStep today (preSla t1 s) = Except.ok t7
      ∧ (∀ y, y ∈ t7.cols ↔ y ∈ t1.cols ∨ y ∈ newCols)
      ∧ t7.rows = (keptRows t1 s).map
          (slaRow today t1 s (findScanOut t1.cols)) := by
  have hmem6 := preSla_cols_mem t1 s hsmem
  have h6rows := preSla_rows t1 s hsmem
  have step : ∀ (cat pc uc : String) (T : Table) (G : Row → Row),
      (∀ y, y ∈ T.cols ↔ y ∈ t1.cols ∨ y ∈ newCols) →
      (pc ∈ t1.cols → uc ∈ t1.cols) →
      pc ∉ newCols → uc ∉ newCols →
      ((cat ++ " Out of SLA") ∈ newCols) →
      (("Day(s) out of SLA - " ++ String.mk (cat.data.map upperCh))
        ∈ newCols) →
      (pc ≠ "Day(s) out of SLA - " ++ String.mk (cat.data.map upperCh)) →
      (uc ≠ "Day(s) out of SLA - " ++ String.mk (cat.data.map upperCh)) →
      (∀ r, G r pc = normRow t1 s (findScanOut t1.cols) r pc) →
      (∀ r, G r uc = normRow t1 s (findScanOut t1.cols) r uc) →
      (∀ r, G r (cat ++ " Out of SLA") = Cell.blank) →
      (∀ r, G r ("Day(s) out of SLA - "
        ++ String.mk (cat.data.map upperCh)) = Cell.blank) →
      T.rows = (keptRows t1 s).map G →
      ∃ T', slaCatStep today cat pc uc T = Except.ok T'
        ∧ (∀ y, y ∈ T'.cols ↔ y ∈ t1.cols ∨ y ∈ newCols)
        ∧ T'.rows = (keptRows t1 s).map (fun r x =>
            if x = cat ++ " Out of SLA" then
              catFlagView (slaDaysFor (String.mk (cat.data.map upperCh)))
                today t1 s (findScanOut t1.cols) pc uc r
            else if x = ("Day(s) out of SLA - "
                ++ String.mk (cat.data.map upperCh)) then
              catOverView (slaDaysFor (String.mk (cat.data.map upperCh)))
                today t1 s (findScanOut t1.cols) pc uc r
            else G r x) := by
    intro cat pc uc T G hT hpu hpn hun hfn hon hpo huo hGp hGu hGf hGo hTrows
    by_cases hp : pc ∈ t1.cols
    · have hu : uc ∈ t1.cols := hpu hp
      refine ⟨catStepTable today cat pc uc T,
        slaCatStep_present today cat pc uc T
          ((hT pc).mpr (Or.inl hp)) ((hT uc).mpr (Or.inl hu)), ?_, ?_⟩
      · intro y
        rw [catStepTable_cols today cat pc uc T
          ((hT _).mpr (Or.inr hon)) ((hT _).mpr (Or.inr hfn))]
        exact hT y
      · rw [catStepTable_rows today cat pc uc T hpo huo, hTrows,
          List.map_map]
        apply List.map_congr_left
        intro r _
        funext x
        simp only [Function.comp]
        have hreadp : cellAt T (G r) pc
            = normVal t1 s (findScanOut t1.cols) r pc :=
          read_normVal t1 s (findScanOut t1.cols) r pc T (hT pc) (G r)
            (hGp r) hpn
        have hreadu : cellAt T (G r) uc
            = normVal t1 s (findScanOut t1.cols) r uc :=
          read_normVal t1 s (findScanOut t1.cols) r uc T (hT uc) (G r)
            (hGu r) hun
        by_cases hxf : x = cat ++ " Out of SLA"
        · rw [if_pos hxf, if_pos hxf, hreadp, hreadu]
          unfold catFlagView
          rw [if_pos hp]
        · rw [if_neg hxf, if_neg hxf]
          by_cases hxo : x = "Day(s) out of SLA - "
              ++ String.mk (cat.data.map upperCh)
          · rw [if_pos hxo, if_pos hxo, hreadp, hreadu]
            unfold catOverView
            rw [if_pos hp]
          · rw [if_neg hxo, if_neg hxo]
    · refine ⟨T, slaCatStep_absent today cat pc uc T (by
        intro hmm
        rcases (hT pc).mp hmm with h | h
        · exact hp h
        · exact hpn h), hT, ?_⟩
      rw [hTrows]
      apply List.map_congr_left
      intro r _
      funext x
      by_cases hxf : x = cat ++ " Out of SLA"
      · rw [if_pos hxf]
        unfold catFlagView
        rw [if_neg hp, hxf, hGf r]
      · rw [if_neg hxf]
        by_cases hxo : x = "Day(s) out of SLA - "
            ++ String.mk (cat.data.map upperCh)
        · rw [if_pos hxo]
          unfold catOverView
          rw [if_neg hp, hxo, hGo r]
        · rw [if_neg hxo]
  -- category 1: Stills
  obtain ⟨ta, hae, hac, har⟩ := step "Stills" "Photo Still Date"
    "Still Upload Date" (preSla t1 s) _ hmem6
    (fun h => hpair ("Stills", "Photo Still Date", "Still Upload Date")
      (by decide) h)
    (by decide) (by decide) (by decide) (by decide) (by decide) (by decide)
    (fun r => rfl) (fun r => rfl)
    (fun r => by unfold normRow; rw [if_pos (by decide)])
    (fun r => by unfold normRow; rw [if_pos (by decide)])
    h6rows
  -- category 2: Model
  obtain ⟨tb, hbe, hbc, hbr⟩ := step "Model" "Photo Model Date"
    "Model Upload Date" ta _ hac
    (fun h => hpair ("Model", "Photo Model Date", "Model Upload Date")
      (by decide) h)
    (by decide) (by decide) (by decide) (by decide) (by decide) (by decide)
    (fun r => by rw [if_neg (by decide), if_neg (by decide)])
    (fun r => by rw [if_neg (by decide), if_neg (by decide)])
    (fun r => by
      rw [if_neg (by decide), if_neg (by decide)]
      unfold normRow
      rw [if_pos (by decide)])
    (fun r => by
      rw [if_neg (by decide), if_neg (by decide)]
      unfold normRow
      rw [if_pos (by decide)])
    har
  -- category 3: Mannequin
  obtain ⟨tc, hce, hcc, hcr⟩ := step "Mannequin" "Photo Mannequin Date"
    "Mannequin Upload Date" tb _ hbc
    (fun h => hpair
      ("Mannequin", "Photo Mannequin Date", "Mannequin Upload Date")
      (by decide) h)
    (by decide) (by decide) (by decide) (by decide) (by decide) (by decide)
    (fun r => by
      rw [if_neg (by decide), if_neg (by decide), if_neg (by decide),
        if_neg (by decide)])
    (fun r => by
      rw [if_neg (by decide), if_neg (by decide), if_neg (by decide),
        if_neg (by decide)])
    (fun r => by
      rw [if_neg (by decide), if_neg (by decide), if_neg (by decide),
        if_neg (by decide)]
      unfold normRow
      rw [if_pos (by decide)])
    (fun r => by
      rw [if_neg (by decide), if_neg (by decide), if_neg (by decide),
        if_neg (by decide)]
      unfold normRow
      rw [if_pos (by decide)])
    hbr
  refine ⟨tc, ?_, hcc, ?_⟩
  · rw [slaLoopStep_bind, hae]
    show (Except.ok ta >>= _) >>= _ = _
    rw [show ((Except.ok ta >>= fun tb => slaCatStep today "Model"
        "Photo Model Date" "Model Upload Date" tb)
          : Except EngineErr Table)
        = slaCatStep today "Model" "Photo Model Date"
            "Model Upload Date" ta from rfl, hbe]
    show Except.ok tb >>= _ = _
    rw [show ((Except.ok tb >>= fun tb => slaCatStep today "Mannequin"
        "Photo Mannequin Date" "Mannequin Upload Date" tb)
          : Except EngineErr Table)
        = slaCatStep today "Mannequin" "Photo Mannequin Date"
            "Mannequin Upload Date" tb from rfl, hce]
  · rw [hcr]
    apply List.map_congr_left
    intro r _
    funext x
    unfold slaRow
    have e1 : String.mk ("Stills".data.map upperCh) = "STILLS" := by decide
    have e2 : String.mk ("Model".data.map upperCh) = "MODEL" := by decide
    have e3 : String.mk ("Mannequin".data.map upperCh) = "MANNEQUIN" := by
      decide
    rw [e1, e2, e3]
    have a1 : ("Day(s) out of SLA - " ++ "STILLS")
        = "Day(s) out of SLA - STILLS" := by decide
    have a2 : ("Day(s) out of SLA - " ++ "MODEL")
        = "Day(s) out of SLA - MODEL" := by decide
    have a3 : ("Day(s) out of SLA - " ++ "MANNEQUIN")
        = "Day(s) out of SLA - MANNEQUIN" := by decide
    have a4 : ("Stills" ++ " Out of SLA") = "Stills Out of SLA" := by decide
    have a5 : ("Model" ++ " Out of SLA") = "Model Out of SLA" := by decide
    have a6 : ("Mannequin" ++ " Out of SLA") = "Mannequin Out of SLA" := by
      decide
    rw [a1, a2, a3, a4, a5, a6]
    by_cases h1 : x = "Mannequin Out of SLA"
    · rw [if_pos h1,
        if_neg (show ¬x = "Stills Out of SLA" from by rw [h1]; decide),
        if_neg (show ¬x = "Day(s) out of SLA - STILLS" from by
          rw [h1]; decide),
        if_neg (show ¬x = "Model Out of SLA" from by rw [h1]; decide),
        if_neg (show ¬x = "Day(s) out of SLA - MODEL" from by
          rw [h1]; decide),
        if_pos h1]
    · by_cases h2 : x = "Day(s) out of SLA - MANNEQUIN"
      · rw [if_neg h1, if_pos h2,
          if_neg (show ¬x = "Stills Out of SLA" from by rw [h2]; decide),
          if_neg (show ¬x = "Day(s) out of SLA - STILLS" from by
            rw [h2]; decide),
          if_neg (show ¬x = "Model Out of SLA" from by rw [h2]; decide),
          if_neg (show ¬x = "Day(s) out of SLA - MODEL" from by
            rw [h2]; decide),
          if_neg h1, if_pos h2]
      · by_cases h3 : x = "Model Out of SLA"
        · rw [if_neg h1, if_neg h2, if_pos h3,
            if_neg (show ¬x = "Stills Out of SLA" from by rw [h3]; decide),
            if_neg (show ¬x = "Day(s) out of SLA - STILLS" from by
              rw [h3]; decide),
            if_pos h3]
        · by_cases h4 : x = "Day(s) out of SLA - MODEL"
          · rw [if_neg h1, if_neg h2, if_neg h3, if_pos h4,
              if_neg (show ¬x = "Stills Out of SLA" from by
                rw [h4]; decide),
              if_neg (show ¬x = "Day(s) out of SLA - STILLS" from by
                rw [h4]; decide),
              if_neg h3, if_pos h4]
          · by_cases h5 : x = "Stills Out of SLA"
            · rw [if_neg h1, if_neg h2, if_neg h3, if_neg h4, if_pos h5,
                if_pos h5]
            · by_cases h6 : x = "Day(s) out of SLA - STILLS"
              · rw [if_neg h1, if_neg h2, if_neg h3, if_neg h4, if_neg h5,
                  if_pos h6, if_neg h5, if_pos h6]
              · rw [if_neg h1, if_neg h2, if_neg h3, if_neg h4, if_neg h5,
                  if_neg h6, if_neg h5, if_neg h6, if_neg h3, if_neg h4,
                  if_neg h1, if_neg h2]

theorem ne_of_matchScanIn (a c : String) (h1 : matchScanIn a = true)
    (h2 : matchScanIn c = false) : a ≠ c := fun h => by
  rw [h, h2] at h1
  cases h1

theorem ne_of_matchScanOut (a c : String) (h1 : matchScanOut a = true)
    (h2 : matchScanOut c = false) : a ≠ c := fun h => by
  rw [h, h2] at h1
  cases h1

theorem notMem_newCols_of_matchScanIn (a : String)
    (h1 : matchScanIn a = true) : a ∉ newCols := fun h => by
  have h2 := newCols_not_scanIn a h
  rw [h1] at h2
  cases h2

theorem notMem_newCols_of_matchScanOut (a : String)
    (h1 : matchScanOut a = true) : a ∉ newCols := fun h => by
  have h2 := newCols_not_scanOut a h
  rw [h1] at h2
  cases h2

theorem slaRow_eq_normRow (today : Int) (t1 : Table) (s : String)
    (o : Option String) (r : Row) (x : String)
    (h1 : x ≠ "Stills Out of SLA") (h2 : x ≠ "Day(s) out of SLA - STILLS")
    (h3 : x ≠ "Model Out of SLA") (h4 : x ≠ "Day(s) out of SLA - MODEL")
    (h5 : x ≠ "Mannequin Out of SLA")
    (h6 : x ≠ "Day(s) out of SLA - MANNEQUIN") :
    slaRow today t1 s o r x = normRow t1 s o r x := by
  unfold slaRow
  rw [if_neg h1, if_neg h2, if_neg h3, if_neg h4, if_neg h5, if_neg h6]

theorem normRow_newCol (t1 : Table) (s : String) (o : Option String)
    (r : Row) (x : String) (h : x ∈ newCols) :
    normRow t1 s o r x = Cell.blank := by
  unfold normRow
  rw [if_pos h]

theorem slaRow_scan (today : Int) (t1 : Table) (s : String)
    (o : Option String) (r : Row) (x : String) (hm : matchScanIn x = true
      ∨ matchScanOut x = true) :
    slaRow today t1 s o r x = normRow t1 s o r x := by
  apply slaRow_eq_normRow
  all_goals
    rcases hm with hm | hm
    · exact ne_of_matchScanIn x _ hm (by decide)
    · exact ne_of_matchScanOut x _ hm (by decide)

theorem notes_after (today : Int) (t1 : Table) (s : String) (t7 : Table)
    (hsmem : s ∈ t1.cols)
    (h7c : ∀ y, y ∈ t7.cols ↔ y ∈ t1.cols ∨ y ∈ newCols)
    (h7r : t7.rows = (keptRows t1 s).map
      (slaRow today t1 s (findScanOut t1.cols))) :
    (∀ y, y ∈ (notesStep today (findScanOut t1.cols) t7).cols
        ↔ y ∈ t1.cols ∨ y ∈ newCols)
    ∧ (notesStep today (findScanOut t1.cols) t7).rows
      = (keptRows t1 s).map (fun r x =>
          if x = "Notes" then notesView today t1 s (findScanOut t1.cols) r
          else slaRow today t1 s (findScanOut t1.cols) r x) := by
  cases ho : findScanOut t1.cols with
  | none =>
      rw [ho] at h7r
      constructor
      · exact h7c
      · show t7.rows = _
        rw [h7r]
        apply List.map_congr_left
        intro r _
        funext x
        by_cases hx : x = "Notes"
        · rw [if_pos hx, show notesView today t1 s none r = Cell.blank
              from rfl, hx,
            slaRow_eq_normRow today t1 s none r "Notes" (by decide)
              (by decide) (by decide) (by decide) (by decide) (by decide),
            normRow_newCol t1 s none r "Notes" (by decide)]
        · rw [if_neg hx]
  | some oc =>
      rw [ho] at h7r
      have hocmatch : matchScanOut oc = true := List.find?_some ho
      have hocmem : oc ∈ t1.cols := findScanOut_mem t1 oc ho
      have hocNotNew : oc ∉ newCols :=
        notMem_newCols_of_matchScanOut oc hocmatch
      have hNotesMem : "Notes" ∈ t7.cols := (h7c _).mpr (Or.inr (by decide))
      have hreadoc : ∀ r, cellAt t7 (slaRow today t1 s (some oc) r) oc
          = normVal t1 s (some oc) r oc := by
        intro r
        exact read_normVal t1 s (some oc) r oc t7 (h7c oc)
          (slaRow today t1 s (some oc) r)
          (slaRow_scan today t1 s (some oc) r oc (Or.inr hocmatch))
          hocNotNew
      have hreadpsd : ∀ r, cellAt t7 (slaRow today t1 s (some oc) r)
          "Photo Still Date"
          = normVal t1 s (some oc) r "Photo Still Date" := by
        intro r
        exact read_normVal t1 s (some oc) r "Photo Still Date" t7 (h7c _)
          (slaRow today t1 s (some oc) r)
          (slaRow_eq_normRow today t1 s (some oc) r _ (by decide)
            (by decide) (by decide) (by decide) (by decide) (by decide))
          (by decide)
      have hreadnotes : ∀ r, cellAt t7 (slaRow today t1 s (some oc) r)
          "Notes" = Cell.blank := by
        intro r
        unfold cellAt
        rw [if_pos (by simpa using hNotesMem),
          slaRow_eq_normRow today t1 s (some oc) r "Notes" (by decide)
            (by decide) (by decide) (by decide) (by decide) (by decide),
          normRow_newCol t1 s (some oc) r "Notes" (by decide)]
      unfold notesStep
      dsimp only
      by_cases hpsd : t7.cols.contains "Photo Still Date" = true
      · have hpsdt1 : "Photo Still Date" ∈ t1.cols := by
          rcases (h7c _).mp (by simpa using hpsd) with h | h
          · exact h
          · exact absurd h (by decide)
        rw [if_pos hpsd]
        constructor
        · intro y
          rw [setCol_cols_of_mem t7 _ _ hNotesMem]
          exact h7c y
        · rw [show (setCol t7 "Notes" _).rows = t7.rows.map _ from rfl,
            h7r, List.map_map]
          apply List.map_congr_left
          intro r _
          funext x
          simp only [Function.comp]
          by_cases hx : x = "Notes"
          · rw [if_pos hx, if_pos hx, hreadoc r, hreadpsd r, hreadnotes r]
            show _ = notesView today t1 s (some oc) r
            unfold notesView
            dsimp only
            rw [if_pos hpsdt1]
          · rw [if_neg hx, if_neg hx]
      · have hpsdt1 : "Photo Still Date" ∉ t1.cols := by
          intro h
          exact hpsd (by
            simpa using (h7c "Photo Still Date").mpr (Or.inl h))
        rw [if_neg hpsd]
        constructor
        · exact h7c
        · rw [h7r]
          apply List.map_congr_left
          intro r _
          funext x
          by_cases hx : x = "Notes"
          · rw [if_pos hx,
              show notesView today t1 s (some oc) r = Cell.blank from by
                unfold notesView
                dsimp only
                rw [if_neg hpsdt1],
              hx,
              slaRow_eq_normRow today t1 s (some oc) r "Notes" (by decide)
                (by decide) (by decide) (by decide) (by decide) (by decide),
              normRow_newCol t1 s (some oc) r "Notes" (by decide)]
          · rw [if_neg hx]

/-- Reading a non-derived, non-Notes column through the notes-stage row view
still yields the normalized value. -/
theorem notesRowView_read (today : Int) (t1 : Table) (s : String)
    (o : Option String) (t8 : Table)
    (h8c : ∀ y, y ∈ t8.cols ↔ y ∈ t1.cols ∨ y ∈ newCols)
    (r : Row) (x : String) (hne : ¬(x = "Notes")) (hnew : x ∉ newCols) :
    cellAt t8 (fun y => if y = "Notes" then notesView today t1 s o r
      else slaRow today t1 s o r y) x = normVal t1 s o r x := by
  refine read_normVal t1 s o r x t8 (h8c x) _ ?_ hnew
  show (if x = "Notes" then notesView today t1 s o r
    else slaRow today t1 s o r x) = normRow t1 s o r x
  rw [if_neg hne]
  apply slaRow_eq_normRow
  all_goals intro h; rw [h] at hnew; exact hnew (by decide)

theorem dis_after (today : Int) (t1 : Table) (s : String) (t8 : Table)
    (hs : matchScanIn s = true)
    (h8c : ∀ y, y ∈ t8.cols ↔ y ∈ t1.cols ∨ y ∈ newCols)
    (h8r : t8.rows = (keptRows t1 s).map (fun r x =>
        if x = "Notes" then notesView today t1 s (findScanOut t1.cols) r
        else slaRow today t1 s (findScanOut t1.cols) r x)) :
    (∀ y, y ∈ (daysInStudioStep today s (findScanOut t1.cols) t8).cols
        ↔ y ∈ t1.cols ∨ y ∈ newCols)
    ∧ (daysInStudioStep today s (findScanOut t1.cols) t8).rows
      = (keptRows t1 s).map (fun r x =>
          if x = "Days in Studio" then
            disView today t1 s (findScanOut t1.cols) r
          else if x = "Notes" then
            notesView today t1 s (findScanOut t1.cols) r
          else slaRow today t1 s (findScanOut t1.cols) r x) := by
  have hDisMem : "Days in Studio" ∈ t8.cols :=
    (h8c _).mpr (Or.inr (by decide))
  constructor
  · intro y
    unfold daysInStudioStep
    rw [setCol_cols_of_mem t8 _ _ hDisMem]
    exact h8c y
  · unfold daysInStudioStep
    rw [show (setCol t8 "Days in Studio" _).rows = t8.rows.map _ from rfl,
      h8r, List.map_map]
    apply List.map_congr_left
    intro r _
    funext x
    dsimp only [Function.comp]
    by_cases hx : x = "Days in Studio"
    · rw [if_pos hx, if_pos hx]
      unfold disView
      simp only [shotCols, List.map_cons, List.map_nil]
      rw [notesRowView_read today t1 s (findScanOut t1.cols) t8 h8c r s
            (ne_of_matchScanIn s "Notes" hs (by decide))
            (notMem_newCols_of_matchScanIn s hs),
          notesRowView_read today t1 s (findScanOut t1.cols) t8 h8c r
            "Photo Still Date" (by decide) (by decide),
          notesRowView_read today t1 s (findScanOut t1.cols) t8 h8c r
            "Photo Model Date" (by decide) (by decide),
          notesRowView_read today t1 s (findScanOut t1.cols) t8 h8c r
            "Photo Mannequin Date" (by decide) (by decide),
          notesRowView_read today t1 s (findScanOut t1.cols) t8 h8c r
            "Still Upload Date" (by decide) (by decide),
          notesRowView_read today t1 s (findScanOut t1.cols) t8 h8c r
            "Model Upload Date" (by decide) (by decide),
          notesRowView_read today t1 s (findScanOut t1.cols) t8 h8c r
            "Mannequin Upload Date" (by decide) (by decide)]
      cases ho : findScanOut t1.cols with
      | none => rfl
      | some oc =>
          dsimp only
          have hocmatch : matchScanOut oc = true := List.find?_some ho
          rw [notesRowView_read today t1 s (some oc) t8 h8c r oc
                (ne_of_matchScanOut oc "Notes" hocmatch (by decide))
                (notMem_newCols_of_matchScanOut oc hocmatch)]
    · rw [if_neg hx, if_neg hx]

theorem status_after (today : Int) (t1 : Table) (s : String) (t9 : Table)
    (h9c : ∀ y, y ∈ t9.cols ↔ y ∈ t1.cols ∨ y ∈ newCols)
    (h9r : t9.rows = (keptRows t1 s).map (fun r x =>
        if x = "Days in Studio" then
          disView today t1 s (findScanOut t1.cols) r
        else if x = "Notes" then
          notesView today t1 s (findScanOut t1.cols) r
        else slaRow today t1 s (findScanOut t1.cols) r x)) :
    (∀ y, y ∈ (slaStatusStep t9).cols
        ↔ y ∈ t1.cols ∨ y ∈ newCols ∨ y = "SLA status")
    ∧ (slaStatusStep t9).rows
      = (keptRows t1 s).map (outRow today t1 s (findScanOut t1.cols)) := by
  have hflagread : ∀ (r : Row) (c : String), c ∈ newCols →
      ¬(c = "Days in Studio") → ¬(c = "Notes") →
      cellAt t9 (fun y =>
        if y = "Days in Studio" then
          disView today t1 s (findScanOut t1.cols) r
        else if y = "Notes" then
          notesView today t1 s (findScanOut t1.cols) r
        else slaRow today t1 s (findScanOut t1.cols) r y) c
      = slaRow today t1 s (findScanOut t1.cols) r c := by
    intro r c hmem hd hn
    unfold cellAt
    rw [if_pos (by simpa using (h9c c).mpr (Or.inr hmem))]
    dsimp only
    rw [if_neg hd, if_neg hn]
  have hstills : ∀ (r : Row),
      slaRow today t1 s (findScanOut t1.cols) r "Stills Out of SLA"
      = catFlagView (slaDaysFor "STILLS") today t1 s (findScanOut t1.cols)
          "Photo Still Date" "Still Upload Date" r := by
    intro r
    unfold slaRow
    rw [if_pos rfl]
  have hmodel : ∀ (r : Row),
      slaRow today t1 s (findScanOut t1.cols) r "Model Out of SLA"
      = catFlagView (slaDaysFor "MODEL") today t1 s (findScanOut t1.cols)
          "Photo Model Date" "Model Upload Date" r := by
    intro r
    unfold slaRow
    rw [if_neg (by decide), if_neg (by decide), if_pos rfl]
  have hmann : ∀ (r : Row),
      slaRow today t1 s (findScanOut t1.cols) r "Mannequin Out of SLA"
      = catFlagView (slaDaysFor "MANNEQUIN") today t1 s
          (findScanOut t1.cols) "Photo Mannequin Date"
          "Mannequin Upload Date" r := by
    intro r
    unfold slaRow
    rw [if_neg (by decide), if_neg (by decide), if_neg (by decide),
      if_neg (by decide), if_pos rfl]
  constructor
  · intro y
    unfold slaStatusStep
    rw [mem_setCol_cols, h9c y]
    exact or_assoc
  · unfold slaStatusStep
    rw [show (setCol t9 "SLA status" _).rows = t9.rows.map _ from rfl,
      h9r, List.map_map]
    apply List.map_congr_left
    intro r _
    funext x
    dsimp only [Function.comp]
    unfold outRow
    by_cases hx : x = "SLA status"
    · rw [if_pos hx, if_pos hx]
      unfold slaStatusRow statusView
      simp only [slaCols, List.map_cons, List.map_nil]
      simp only [hflagread r "Stills Out of SLA" (by decide) (by decide)
            (by decide),
          hflagread r "Model Out of SLA" (by decide) (by decide)
            (by decide),
          hflagread r "Mannequin Out of SLA" (by decide) (by decide)
            (by decide),
          hstills r, hmodel r, hmann r]
    · rw [if_neg hx, if_neg hx]

/-- Full characterization of a successful run past scan-in resolution:
columns are the pruned input's plus the derived ones, rows are the kept rows
mapped through the per-row output view. -/
theorem engine_ok_core (today : Int) (t1 : Table) (s : String)
    (hs : matchScanIn s = true) (hsmem : s ∈ t1.cols)
    (hpair : ∀ e ∈ slaMapping, e.2.1 ∈ t1.cols → e.2.2 ∈ t1.cols) :
    ∃ u, engineWithScan today s t1 = Except.ok u
      ∧ (∀ y, y ∈ u.cols ↔ y ∈ t1.cols ∨ y ∈ newCols ∨ y = "SLA status")
      ∧ u.rows = (keptRows t1 s).map
          (outRow today t1 s (findScanOut t1.cols)) := by
  obtain ⟨t7, h7ok, h7c, h7r⟩ := slaLoop_preSla today t1 s hsmem hpair
  obtain ⟨h8c, h8r⟩ := notes_after today t1 s t7 hsmem h7c h7r
  obtain ⟨h9c, h9r⟩ := dis_after today t1 s
    (notesStep today (findScanOut t1.cols) t7) hs h8c h8r
  obtain ⟨h10c, h10r⟩ := status_after today t1 s
    (daysInStudioStep today s (findScanOut t1.cols)
      (notesStep today (findScanOut t1.cols) t7)) h9c h9r
  refine ⟨_, ?_, h10c, h10r⟩
  unfold engineWithScan
  unfold preSla at h7ok
  rw [h7ok, findScanOut_scanFiltered t1 s hsmem]

/-- The same characterization from the raw input table, through the pruning
and scan-in resolution. -/
theorem engine_ok_master (today : Int) (t : Table) (s : String)
    (hfin : findScanIn (pruneTable t).cols = some s)
    (hpair : ∀ e ∈ slaMapping, e.2.1 ∈ (pruneTable t).cols →
      e.2.2 ∈ (pruneTable t).cols) :
    ∃ u, engine today t = Except.ok u
      ∧ (∀ y, y ∈ u.cols ↔ y ∈ (pruneTable t).cols ∨ y ∈ newCols
          ∨ y = "SLA status")
      ∧ u.rows = (keptRows (pruneTable t) s).map
          (outRow today (pruneTable t) s
            (findScanOut (pruneTable t).cols)) := by
  obtain ⟨u, hu, hc, hr⟩ := engine_ok_core today (pruneTable t) s
    (List.find?_some hfin) (List.mem_of_find?_eq_some hfin) hpair
  refine ⟨u, ?_, hc, hr⟩
  unfold engine
  rw [hfin]
  exact hu

/-! ## Reading the output row view -/

theorem cellAt_of_mem (t : Table) (r : Row) (c : String) (h : c ∈ t.cols) :
    cellAt t r c = r c := by
  unfold cellAt
  rw [if_pos (by simpa using h)]

theorem outRow_status (today : Int) (t1 : Table) (s : String)
    (o : Option String) (r : Row) :
    outRow today t1 s o r "SLA status" = statusView today t1 s o r := by
  unfold outRow
  rw [if_pos rfl]

theorem outRow_dis (today : Int) (t1 : Table) (s : String)
    (o : Option String) (r : Row) :
    outRow today t1 s o r "Days in Studio" = disView today t1 s o r := by
  unfold outRow
  rw [if_neg (by decide), if_pos rfl]

theorem outRow_notes (today : Int) (t1 : Table) (s : String)
    (o : Option String) (r : Row) :
    outRow today t1 s o r "Notes" = notesView today t1 s o r := by
  unfold outRow
  rw [if_neg (by decide), if_neg (by decide), if_pos rfl]

theorem outRow_slaCol (today : Int) (t1 : Table) (s : String)
    (o : Option String) (r : Row) (x : String) (h1 : ¬(x = "SLA status"))
    (h2 : ¬(x = "Days in Studio")) (h3 : ¬(x = "Notes")) :
    outRow today t1 s o r x = slaRow today t1 s o r x := by
  unfold outRow
  rw [if_neg h1, if_neg h2, if_neg h3]

theorem outRow_nonDerived (today : Int) (t1 : Table) (s : String)
    (o : Option String) (r : Row) (x : String)
    (hnew : x ∉ newCols) (hst : ¬(x = "SLA status")) :
    outRow today t1 s o r x = normRow t1 s o r x := by
  have hdis : ¬(x = "Days in Studio") := by
    intro h
    rw [h] at hnew
    exact hnew (by decide)
  have hnot : ¬(x = "Notes") := by
    intro h
    rw [h] at hnew
    exact hnew (by decide)
  rw [outRow_slaCol today t1 s o r x hst hdis hnot]
  apply slaRow_eq_normRow
  all_goals intro h; rw [h] at hnew; exact hnew (by decide)

theorem slaRow_flag_stills (today : Int) (t1 : Table) (s : String)
    (o : Option String) (r : Row) :
    slaRow today t1 s o r "Stills Out of SLA"
      = catFlagView (slaDaysFor "STILLS") today t1 s o "Photo Still Date"
          "Still Upload Date" r := by
  unfold slaRow
  rw [if_pos rfl]

theorem slaRow_over_stills (today : Int) (t1 : Table) (s : String)
    (o : Option String) (r : Row) :
    slaRow today t1 s o r "Day(s) out of SLA - STILLS"
      = catOverView (slaDaysFor "STILLS") today t1 s o "Photo Still Date"
          "Still Upload Date" r := by
  unfold slaRow
  rw [if_neg (by decide), if_pos rfl]

theorem slaRow_flag_model (today : Int) (t1 : Table) (s : String)
    (o : Option String) (r : Row) :
    slaRow today t1 s o r "Model Out of SLA"
      = catFlagView (slaDaysFor "MODEL") today t1 s o "Photo Model Date"
          "Model Upload Date" r := by
  unfold slaRow
  rw [if_neg (by decide), if_neg (by decide), if_pos rfl]

theorem slaRow_over_model (today : Int) (t1 : Table) (s : String)
    (o : Option String) (r : Row) :
    slaRow today t1 s o r "Day(s) out of SLA - MODEL"
      = catOverView (slaDaysFor "MODEL") today t1 s o "Photo Model Date"
          "Model Upload Date" r := by
  unfold slaRow
  rw [if_neg (by decide), if_neg (by decide), if_neg (by decide),
    if_pos rfl]

theorem slaRow_flag_mann (today : Int) (t1 : Table) (s : String)
    (o : Option String) (r : Row) :
    slaRow today t1 s o r "Mannequin Out of SLA"
      = catFlagView (slaDaysFor "MANNEQUIN") today t1 s o
          "Photo Mannequin Date" "Mannequin Upload Date" r := by
  unfold slaRow
  rw [if_neg (by decide), if_neg (by decide), if_neg (by decide),
    if_neg (by decide), if_pos rfl]

theorem slaRow_over_mann (today : Int) (t1 : Table) (s : String)
    (o : Option String) (r : Row) :
    slaRow today t1 s o r "Day(s) out of SLA - MANNEQUIN"
      = catOverView (slaDaysFor "MANNEQUIN") today t1 s o
          "Photo Mannequin Date" "Mannequin Upload Date" r := by
  unfold slaRow
  rw [if_neg (by decide), if_neg (by decide), if_neg (by decide),
    if_neg (by decide), if_neg (by decide), if_pos rfl]

theorem normRow_scanIn (t1 : Table) (s : String) (o : Option String)
    (r : Row) (hsmem : s ∈ t1.cols) (hnew : s ∉ newCols) :
    normRow t1 s o r s = toDatetimeCell (r s) := by
  unfold normRow
  rw [if_neg hnew]
  have hcond : s ∈ t1.cols ∧ (dateName s = true ∨ s = s ∨ o = some s) :=
    ⟨hsmem, Or.inr (Or.inl rfl)⟩
  rw [if_pos hcond]

theorem keptRows_scan_date (t1 : Table) (s : String) (hsmem : s ∈ t1.cols)
    (r : Row) (hr : r ∈ keptRows t1 s) :
    ∃ d, toDatetimeCell (r s) = Cell.date d := by
  unfold keptRows at hr
  rw [List.mem_filter] at hr
  have h2 := hr.2
  simp only [Bool.not_eq_true', decide_eq_false_iff_not] at h2
  rw [cellAt_of_mem t1 r s hsmem] at h2
  rcases toDatetimeCell_date_or_blank (r s) with ⟨d, hd⟩ | hb
  · exact ⟨d, hd⟩
  · exact absurd hb h2

theorem computeDaysInStudio_of_some (today : Int) (d : Int)
    (z : Option Int) (cells : List Cell) :
    (∃ n, computeDaysInStudio today (some d) z cells = Cell.num n)
    ∨ computeDaysInStudio today (some d) z cells = Cell.text "SCANNED OUT"
    ∨ computeDaysInStudio today (some d) z cells
        = Cell.text "SCANNED OUT AND NEVER SHOT" := by
  unfold computeDaysInStudio
  by_cases h1 : ((some d).isSome && z.isSome
      && cells.all (fun c => decide (c = Cell.blank))) = true
  · rw [if_pos h1]
    exact Or.inr (Or.inr rfl)
  · rw [if_neg h1]
    by_cases h2 : z.isSome = true
    · rw [if_pos h2]
      exact Or.inr (Or.inl rfl)
    · rw [if_neg h2]
      exact Or.inl ⟨busdayCount d today, rfl⟩

theorem computeDaysInStudio_none_out (today : Int) (d : Int)
    (cells : List Cell) :
    computeDaysInStudio today (some d) none cells
      = Cell.num (busdayCount d today) := rfl

/-! ## Claims C8 and C10: scan-out degradation and output invariants -/

/-- C8 (counterexample): on `tSample` the table has no scan-out column, the
run is non-fatal, the single record's stills photo date is known (day 4)
with `businessDays(4, 11) = 5 > 2` — yet the `Notes` column stays blank: the
"Awaiting model shot" note is NOT attached, because the code guards the whole
notes block behind `scan_out_col` being present (src/app.py line 180). -/
theorem c8_counterexample :
    findScanOut (pruneTable tSample).cols = none
    ∧ (engine 11 tSample).isOk = true
    ∧ colVals (okTable (engine 11 tSample)) "Photo Still Date"
        = [Cell.date 4]
    ∧ 2 < busdayCount 4 11
    ∧ colVals (okTable (engine 11 tSample)) "Notes" = [Cell.blank] := by
  decide

/-- C8 (amended): when the pruned table has no scan-out column, the run is
indeed non-fatal and the residency classifier degrades as specified — every
output record's `Days in Studio` is a business-day count (never a
`SCANNED OUT` string) — but the `Notes` column is blank on every record:
the "Awaiting model shot" note is never attached, contrary to the claim. -/
theorem c8_no_scan_out (today : Int) (t : Table) (s : String)
    (hfin : findScanIn (pruneTable t).cols = some s)
    (hnone : findScanOut (pruneTable t).cols = none)
    (hpair : ∀ e ∈ slaMapping, e.2.1 ∈ (pruneTable t).cols →
      e.2.2 ∈ (pruneTable t).cols) :
    ∃ u, engine today t = Except.ok u
      ∧ (∀ c ∈ colVals u "Days in Studio", ∃ n, c = Cell.num n)
      ∧ (∀ c ∈ colVals u "Notes", c = Cell.blank) := by
  obtain ⟨u, hu, hc, hr⟩ := engine_ok_master today t s hfin hpair
  have hsmem : s ∈ (pruneTable t).cols := List.mem_of_find?_eq_some hfin
  rw [hnone] at hr
  refine ⟨u, hu, ?_, ?_⟩
  · intro c hcv
    unfold colVals at hcv
    rw [hr, List.map_map] at hcv
    obtain ⟨r0, hr0, rfl⟩ := List.mem_map.mp hcv
    dsimp only [Function.comp]
    rw [cellAt_of_mem u _ _ ((hc _).mpr (Or.inr (Or.inl (by decide)))),
      outRow_dis]
    unfold disView
    have hnv : normVal (pruneTable t) s none r0 s
        = toDatetimeCell (r0 s) := by
      unfold normVal
      rw [if_pos hsmem]
      have hcond : dateName s = true ∨ s = s
          ∨ (none : Option String) = some s := Or.inr (Or.inl rfl)
      rw [if_pos hcond]
    obtain ⟨d, hd⟩ := keptRows_scan_date (pruneTable t) s hsmem r0 hr0
    rw [hnv, hd]
    exact ⟨busdayCount d today, rfl⟩
  · intro c hcv
    unfold colVals at hcv
    rw [hr, List.map_map] at hcv
    obtain ⟨r0, hr0, rfl⟩ := List.mem_map.mp hcv
    dsimp only [Function.comp]
    rw [cellAt_of_mem u _ _ ((hc _).mpr (Or.inr (Or.inl (by decide)))),
      outRow_notes]
    rfl

/-- C8 (witness): the amended theorem applied to `tSample` at day 11. -/
theorem c8_no_scan_out_witness :
    findScanOut (pruneTable tSample).cols = none
    ∧ ∃ u, engine 11 tSample = Except.ok u
      ∧ (∀ c ∈ colVals u "Days in Studio", ∃ n, c = Cell.num n)
      ∧ (∀ c ∈ colVals u "Notes", c = Cell.blank) :=
  ⟨by decide, c8_no_scan_out 11 tSample "Scan In Date" (by decide)
    (by decide) (by decide)⟩

/-- C10: on a successful run, every output record's scan-in cell is a
successfully parsed date (the scan-in filter runs before any derived column
is computed), and the `Days in Studio` cell of every output record is a
business-day count or one of the two fixed `SCANNED OUT` strings — the
classifier's blank fallback is unreachable. -/
theorem c10_days_in_studio_total (today : Int) (t : Table) (s : String)
    (hfin : findScanIn (pruneTable t).cols = some s)
    (hpair : ∀ e ∈ slaMapping, e.2.1 ∈ (pruneTable t).cols →
      e.2.2 ∈ (pruneTable t).cols) :
    ∃ u, engine today t = Except.ok u
      ∧ (∀ c ∈ colVals u s, ∃ d, c = Cell.date d)
      ∧ (∀ c ∈ colVals u "Days in Studio",
          (∃ n, c = Cell.num n) ∨ c = Cell.text "SCANNED OUT"
          ∨ c = Cell.text "SCANNED OUT AND NEVER SHOT") := by
  obtain ⟨u, hu, hc, hr⟩ := engine_ok_master today t s hfin hpair
  have hs : matchScanIn s = true := List.find?_some hfin
  have hsmem : s ∈ (pruneTable t).cols := List.mem_of_find?_eq_some hfin
  refine ⟨u, hu, ?_, ?_⟩
  · intro c hcv
    unfold colVals at hcv
    rw [hr, List.map_map] at hcv
    obtain ⟨r0, hr0, rfl⟩ := List.mem_map.mp hcv
    dsimp only [Function.comp]
    rw [cellAt_of_mem u _ s ((hc s).mpr (Or.inl hsmem)),
      outRow_nonDerived today (pruneTable t) s _ r0 s
        (notMem_newCols_of_matchScanIn s hs)
        (ne_of_matchScanIn s "SLA status" hs (by decide)),
      normRow_scanIn (pruneTable t) s _ r0 hsmem
        (notMem_newCols_of_matchScanIn s hs)]
    exact keptRows_scan_date (pruneTable t) s hsmem r0 hr0
  · intro c hcv
    unfold colVals at hcv
    rw [hr, List.map_map] at hcv
    obtain ⟨r0, hr0, rfl⟩ := List.mem_map.mp hcv
    dsimp only [Function.comp]
    rw [cellAt_of_mem u _ _ ((hc _).mpr (Or.inr (Or.inl (by decide)))),
      outRow_dis]
    unfold disView
    have hnv : normVal (pruneTable t) s (findScanOut (pruneTable t).cols)
        r0 s = toDatetimeCell (r0 s) := by
      unfold normVal
      rw [if_pos hsmem]
      have hcond : dateName s = true ∨ s = s
          ∨ findScanOut (pruneTable t).cols = some s :=
        Or.inr (Or.inl rfl)
      rw [if_pos hcond]
    obtain ⟨d, hd⟩ := keptRows_scan_date (pruneTable t) s hsmem r0 hr0
    rw [hnv, hd]
    exact computeDaysInStudio_of_some today d _ _

/-- C10 (witness): the invariant applied to `tSample` at day 11. -/
theorem c10_days_in_studio_total_witness :
    findScanIn (pruneTable tSample).cols = some "Scan In Date"
    ∧ ∃ u, engine 11 tSample = Except.ok u
      ∧ (∀ c ∈ colVals u "Scan In Date", ∃ d, c = Cell.date d)
      ∧ (∀ c ∈ colVals u "Days in Studio",
          (∃ n, c = Cell.num n) ∨ c = Cell.text "SCANNED OUT"
          ∨ c = Cell.text "SCANNED OUT AND NEVER SHOT") :=
  ⟨by decide, c10_days_in_studio_total 11 tSample "Scan In Date"
    (by decide) (by decide)⟩

/-! ## Second-run stability -/

theorem normVal_second (today : Int) (t1 t1' : Table) (s : String)
    (o : Option String) (r0 : Row) (c : String)
    (hiff : c ∈ t1'.cols ↔ c ∈ t1.cols)
    (hcond : dateName c = true ∨ c = s ∨ o = some c)
    (hnew : c ∉ newCols) (hst : ¬(c = "SLA status")) :
    normVal t1' s o (outRow today t1 s o r0) c = normVal t1 s o r0 c := by
  unfold normVal
  by_cases hmem : c ∈ t1.cols
  · rw [if_pos (hiff.mpr hmem), if_pos hmem, if_pos hcond, if_pos hcond,
      outRow_nonDerived today t1 s o r0 c hnew hst]
    unfold normRow
    rw [if_neg hnew]
    have hc2 : c ∈ t1.cols ∧ (dateName c = true ∨ c = s ∨ o = some c) :=
      ⟨hmem, hcond⟩
    rw [if_pos hc2, toDatetimeCell_idem]
  · have hn' : c ∉ t1'.cols := fun h => hmem (hiff.mp h)
    rw [if_neg hn', if_neg hmem]

theorem catFlagView_second (al today : Int) (t1 t1' : Table) (s : String)
    (o : Option String) (r0 : Row) (pc uc : String)
    (hiffp : pc ∈ t1'.cols ↔ pc ∈ t1.cols)
    (hp2 : normVal t1' s o (outRow today t1 s o r0) pc
      = normVal t1 s o r0 pc)
    (hu2 : normVal t1' s o (outRow today t1 s o r0) uc
      = normVal t1 s o r0 uc) :
    catFlagView al today t1' s o pc uc (outRow today t1 s o r0)
      = catFlagView al today t1 s o pc uc r0 := by
  unfold catFlagView
  rw [hp2, hu2]
  by_cases hmem : pc ∈ t1.cols
  · rw [if_pos (hiffp.mpr hmem), if_pos hmem]
  · have hn' : pc ∉ t1'.cols := fun h => hmem (hiffp.mp h)
    rw [if_neg hn', if_neg hmem]

theorem catOverView_second (al today : Int) (t1 t1' : Table) (s : String)
    (o : Option String) (r0 : Row) (pc uc : String)
    (hiffp : pc ∈ t1'.cols ↔ pc ∈ t1.cols)
    (hp2 : normVal t1' s o (outRow today t1 s o r0) pc
      = normVal t1 s o r0 pc)
    (hu2 : normVal t1' s o (outRow today t1 s o r0) uc
      = normVal t1 s o r0 uc) :
    catOverView al today t1' s o pc uc (outRow today t1 s o r0)
      = catOverView al today t1 s o pc uc r0 := by
  unfold catOverView
  rw [hp2, hu2]
  by_cases hmem : pc ∈ t1.cols
  · rw [if_pos (hiffp.mpr hmem), if_pos hmem]
  · have hn' : pc ∉ t1'.cols := fun h => hmem (hiffp.mp h)
    rw [if_neg hn', if_neg hmem]

theorem statusView_second (today : Int) (t1 t1' : Table) (s : String)
    (o : Option String) (r0 : Row)
    (h1 : catFlagView (slaDaysFor "STILLS") today t1' s o
        "Photo Still Date" "Still Upload Date" (outRow today t1 s o r0)
      = catFlagView (slaDaysFor "STILLS") today t1 s o "Photo Still Date"
        "Still Upload Date" r0)
    (h2 : catFlagView (slaDaysFor "MODEL") today t1' s o
        "Photo Model Date" "Model Upload Date" (outRow today t1 s o r0)
      = catFlagView (slaDaysFor "MODEL") today t1 s o "Photo Model Date"
        "Model Upload Date" r0)
    (h3 : catFlagView (slaDaysFor "MANNEQUIN") today t1' s o
        "Photo Mannequin Date" "Mannequin Upload Date"
        (outRow today t1 s o r0)
      = catFlagView (slaDaysFor "MANNEQUIN") today t1 s o
        "Photo Mannequin Date" "Mannequin Upload Date" r0) :
    statusView today t1' s o (outRow today t1 s o r0)
      = statusView today t1 s o r0 := by
  unfold statusView
  simp only [h1, h2, h3]

theorem notesView_second (today : Int) (t1 t1' : Table) (s : String)
    (o : Option String) (r0 : Row)
    (hiffp : "Photo Still Date" ∈ t1'.cols
      ↔ "Photo Still Date" ∈ t1.cols)
    (hoc : ∀ oc, o = some oc →
      normVal t1' s o (outRow today t1 s o r0) oc = normVal t1 s o r0 oc)
    (hp2 : normVal t1' s o (outRow today t1 s o r0) "Photo Still Date"
      = normVal t1 s o r0 "Photo Still Date") :
    notesView today t1' s o (outRow today t1 s o r0)
      = notesView today t1 s o r0 := by
  unfold notesView
  cases o with
  | none => rfl
  | some oc =>
      dsimp only
      simp only [hoc oc rfl, hp2]
      by_cases hmem : "Photo Still Date" ∈ t1.cols
      · rw [if_pos (hiffp.mpr hmem), if_pos hmem]
      · have hn' : "Photo Still Date" ∉ t1'.cols :=
          fun h => hmem (hiffp.mp h)
        rw [if_neg hn', if_neg hmem]

theorem disView_second (today : Int) (t1 t1' : Table) (s : String)
    (o : Option String) (r0 : Row)
    (hs2 : normVal t1' s o (outRow today t1 s o r0) s
      = normVal t1 s o r0 s)
    (hoc : ∀ oc, o = some oc →
      normVal t1' s o (outRow today t1 s o r0) oc = normVal t1 s o r0 oc)
    (hshot : ∀ c ∈ shotCols,
      normVal t1' s o (outRow today t1 s o r0) c = normVal t1 s o r0 c) :
    disView today t1' s o (outRow today t1 s o r0)
      = disView today t1 s o r0 := by
  unfold disView
  rw [hs2, List.map_congr_left hshot]
  cases o with
  | none => rfl
  | some oc =>
      dsimp only
      rw [hoc oc rfl]

theorem keptRows_output (today : Int) (t1 : Table) (s : String)
    (u t1' : Table) (hsmem : s ∈ t1.cols) (hs : matchScanIn s = true)
    (ht1r : t1'.rows = u.rows) (hsmem' : s ∈ t1'.cols)
    (hr1 : u.rows = (keptRows t1 s).map
      (outRow today t1 s (findScanOut t1.cols))) :
    keptRows t1' s = u.rows := by
  unfold keptRows
  rw [ht1r]
  apply List.filter_eq_self.mpr
  intro r hrm
  rw [hr1] at hrm
  obtain ⟨r0, hr0, rfl⟩ := List.mem_map.mp hrm
  have hval : (outRow today t1 s (findScanOut t1.cols) r0) s
      = toDatetimeCell (r0 s) := by
    rw [outRow_nonDerived today t1 s _ r0 s
        (notMem_newCols_of_matchScanIn s hs)
        (ne_of_matchScanIn s "SLA status" hs (by decide)),
      normRow_scanIn t1 s _ r0 hsmem (notMem_newCols_of_matchScanIn s hs)]
  obtain ⟨d, hd⟩ := keptRows_scan_date t1 s hsmem r0 hr0
  simp only [cellAt_of_mem t1' _ s hsmem', hval, toDatetimeCell_idem, hd]
  rfl

/-! ## Claim C9: idempotence of a second run -/

/-- C9 (counterexample): on `t9ex` (stills photo column at input position 1)
the first run computes `Stills Out of SLA = "LATE"`, but running the engine
again on its own output erases it: the second run's positional pruning
deletes the `Photo Still Date` column (now sitting at position 0, an
Excel-letter slot in `COLS_TO_DELETE`), the Stills category is skipped, and
the re-initialized flag column stays blank. -/
theorem c9_counterexample :
    (engine 11 t9ex).isOk = true
    ∧ (engine 11 (okTable (engine 11 t9ex))).isOk = true
    ∧ colVals (okTable (engine 11 t9ex)) "Stills Out of SLA"
        = [Cell.text "LATE"]
    ∧ colVals (okTable (engine 11 (okTable (engine 11 t9ex))))
        "Stills Out of SLA" = [Cell.blank] := by
  decide

/-- C9 (amended): a second run with the same `today` leaves the nine derived
columns unchanged provided the second run's column resolution is stable:
the second pruning must keep a scan-in column resolving to the same `s`,
resolve the same scan-out column, and keep every photo/upload column that
survived the first pruning.  Without these hypotheses the claim fails (see
the counterexample): the second run's positional pruning can delete the very
columns the SLA computations read. -/
theorem c9_second_run_stable (today : Int) (t : Table) (s : String)
    (hfin : findScanIn (pruneTable t).cols = some s)
    (hpair : ∀ e ∈ slaMapping, e.2.1 ∈ (pruneTable t).cols →
      e.2.2 ∈ (pruneTable t).cols)
    (hfin2 : findScanIn (pruneTable (okTable (engine today t))).cols
      = some s)
    (hout2 : findScanOut (pruneTable (okTable (engine today t))).cols
      = findScanOut (pruneTable t).cols)
    (hkeep : ∀ c ∈ shotCols, c ∈ (pruneTable t).cols →
      c ∈ (pruneTable (okTable (engine today t))).cols) :
    ∃ u u2, engine today t = Except.ok u ∧ engine today u = Except.ok u2
      ∧ ∀ x ∈ derivedCols, colVals u2 x = colVals u x := by
  obtain ⟨u, hu, hc1, hr1⟩ := engine_ok_master today t s hfin hpair
  have hok : okTable (engine today t) = u := by
    rw [hu]
    rfl
  rw [hok] at hfin2 hout2 hkeep
  have hs : matchScanIn s = true := List.find?_some hfin
  have hsmem : s ∈ (pruneTable t).cols := List.mem_of_find?_eq_some hfin
  have hsmem' : s ∈ (pruneTable u).cols := List.mem_of_find?_eq_some hfin2
  have hsub : ∀ c, c ∈ (pruneTable u).cols → c ∈ u.cols := by
    intro c hcm
    exact ((mem_dropColsByName_cols u _ c).mp hcm).1
  have hiffcat : ∀ c ∈ shotCols,
      (c ∈ (pruneTable u).cols ↔ c ∈ (pruneTable t).cols) := by
    intro c hcs
    constructor
    · intro hcm
      rcases (hc1 c).mp (hsub c hcm) with h | h | h
      · exact h
      · exact absurd h (by fin_cases hcs <;> decide)
      · exact absurd h (by fin_cases hcs <;> decide)
    · exact hkeep c hcs
  have hpair2 : ∀ e ∈ slaMapping, e.2.1 ∈ (pruneTable u).cols →
      e.2.2 ∈ (pruneTable u).cols := by
    intro e he hpm
    fin_cases he
    · exact hkeep "Still Upload Date" (by decide)
        (hpair ("Stills", "Photo Still Date", "Still Upload Date")
          (by decide) ((hiffcat "Photo Still Date" (by decide)).mp hpm))
    · exact hkeep "Model Upload Date" (by decide)
        (hpair ("Model", "Photo Model Date", "Model Upload Date")
          (by decide) ((hiffcat "Photo Model Date" (by decide)).mp hpm))
    · exact hkeep "Mannequin Upload Date" (by decide)
        (hpair ("Mannequin", "Photo Mannequin Date",
            "Mannequin Upload Date")
          (by decide) ((hiffcat "Photo Mannequin Date" (by decide)).mp hpm))
  obtain ⟨u2, hu2, hc2, hr2⟩ := engine_ok_master today u s hfin2 hpair2
  rw [hout2] at hr2
  have hkept : keptRows (pruneTable u) s = u.rows :=
    keptRows_output today (pruneTable t) s u (pruneTable u) hsmem hs rfl
      hsmem' hr1
  have hseq : ∀ r0 : Row,
      normVal (pruneTable u) s (findScanOut (pruneTable t).cols)
        (outRow today (pruneTable t) s (findScanOut (pruneTable t).cols)
          r0) s
      = normVal (pruneTable t) s (findScanOut (pruneTable t).cols) r0
          s := by
    intro r0
    exact normVal_second today (pruneTable t) (pruneTable u) s _ r0 s
      ⟨fun _ => hsmem, fun _ => hsmem'⟩ (Or.inr (Or.inl rfl))
      (notMem_newCols_of_matchScanIn s hs)
      (ne_of_matchScanIn s "SLA status" hs (by decide))
  have hoceq : ∀ (r0 : Row) (oc : String),
      findScanOut (pruneTable t).cols = some oc →
      normVal (pruneTable u) s (findScanOut (pruneTable t).cols)
        (outRow today (pruneTable t) s (findScanOut (pruneTable t).cols)
          r0) oc
      = normVal (pruneTable t) s (findScanOut (pruneTable t).cols) r0
          oc := by
    intro r0 oc ho
    have hoc : matchScanOut oc = true := List.find?_some ho
    exact normVal_second today (pruneTable t) (pruneTable u) s _ r0 oc
      ⟨fun _ => findScanOut_mem (pruneTable t) oc ho,
       fun _ => findScanOut_mem (pruneTable u) oc (hout2.trans ho)⟩
      (Or.inr (Or.inr ho))
      (notMem_newCols_of_matchScanOut oc hoc)
      (ne_of_matchScanOut oc "SLA status" hoc (by decide))
  have hcateq : ∀ (r0 : Row), ∀ c ∈ shotCols,
      normVal (pruneTable u) s (findScanOut (pruneTable t).cols)
        (outRow today (pruneTable t) s (findScanOut (pruneTable t).cols)
          r0) c
      = normVal (pruneTable t) s (findScanOut (pruneTable t).cols) r0
          c := by
    intro r0 c hcs
    refine normVal_second today (pruneTable t) (pruneTable u) s _ r0 c
      (hiffcat c hcs) ?_ ?_ ?_
    · exact Or.inl (by fin_cases hcs <;> decide)
    · fin_cases hcs <;> decide
    · fin_cases hcs <;> decide
  have hflagS : ∀ r0 : Row,
      catFlagView (slaDaysFor "STILLS") today (pruneTable u) s
        (findScanOut (pruneTable t).cols) "Photo Still Date"
        "Still Upload Date"
        (outRow today (pruneTable t) s (findScanOut (pruneTable t).cols)
          r0)
      = catFlagView (slaDaysFor "STILLS") today (pruneTable t) s
        (findScanOut (pruneTable t).cols) "Photo Still Date"
        "Still Upload Date" r0 := by
    intro r0
    exact catFlagView_second _ today (pruneTable t) (pruneTable u) s _ r0
      _ _ (hiffcat "Photo Still Date" (by decide))
      (hcateq r0 "Photo Still Date" (by decide))
      (hcateq r0 "Still Upload Date" (by decide))
  have hflagM : ∀ r0 : Row,
      catFlagView (slaDaysFor "MODEL") today (pruneTable u) s
        (findScanOut (pruneTable t).cols) "Photo Model Date"
        "Model Upload Date"
        (outRow today (pruneTable t) s (findScanOut (pruneTable t).cols)
          r0)
      = catFlagView (slaDaysFor "MODEL") today (pruneTable t) s
        (findScanOut (pruneTable t).cols) "Photo Model Date"
        "Model Upload Date" r0 := by
    intro r0
    exact catFlagView_second _ today (pruneTable t) (pruneTable u) s _ r0
      _ _ (hiffcat "Photo Model Date" (by decide))
      (hcateq r0 "Photo Model Date" (by decide))
      (hcateq r0 "Model Upload Date" (by decide))
  have hflagQ : ∀ r0 : Row,
      catFlagView (slaDaysFor "MANNEQUIN") today (pruneTable u) s
        (findScanOut (pruneTable t).cols) "Photo Mannequin Date"
        "Mannequin Upload Date"
        (outRow today (pruneTable t) s (findScanOut (pruneTable t).cols)
          r0)
      = catFlagView (slaDaysFor "MANNEQUIN") today (pruneTable t) s
        (findScanOut (pruneTable t).cols) "Photo Mannequin Date"
        "Mannequin Upload Date" r0 := by
    intro r0
    exact catFlagView_second _ today (pruneTable t) (pruneTable u) s _ r0
      _ _ (hiffcat "Photo Mannequin Date" (by decide))
      (hcateq r0 "Photo Mannequin Date" (by decide))
      (hcateq r0 "Mannequin Upload Date" (by decide))
  refine ⟨u, u2, hu, hu2, ?_⟩
  intro x hx
  have hcolveq : ∀ (x : String),
      (∀ r0 ∈ keptRows (pruneTable t) s,
        cellAt u2 (outRow today (pruneTable u) s
          (findScanOut (pruneTable t).cols)
          (outRow today (pruneTable t) s
            (findScanOut (pruneTable t).cols) r0)) x
        = cellAt u (outRow today (pruneTable t) s
            (findScanOut (pruneTable t).cols) r0) x) →
      colVals u2 x = colVals u x := by
    intro x hpt
    unfold colVals
    rw [hr2, hkept, hr1, List.map_map, List.map_map, List.map_map]
    apply List.map_congr_left
    intro r0 hr0
    dsimp only [Function.comp]
    exact hpt r0 hr0
  fin_cases hx
  · apply hcolveq
    intro r0 hr0
    rw [cellAt_of_mem u2 _ _ ((hc2 _).mpr (Or.inr (Or.inl (by decide)))),
      cellAt_of_mem u _ _ ((hc1 _).mpr (Or.inr (Or.inl (by decide)))),
      outRow_slaCol today (pruneTable u) s _ _ _ (by decide) (by decide)
        (by decide),
      outRow_slaCol today (pruneTable t) s _ _ _ (by decide) (by decide)
        (by decide),
      slaRow_flag_stills, slaRow_flag_stills]
    exact hflagS r0
  · apply hcolveq
    intro r0 hr0
    rw [cellAt_of_mem u2 _ _ ((hc2 _).mpr (Or.inr (Or.inl (by decide)))),
      cellAt_of_mem u _ _ ((hc1 _).mpr (Or.inr (Or.inl (by decide)))),
      outRow_slaCol today (pruneTable u) s _ _ _ (by decide) (by decide)
        (by decide),
      outRow_slaCol today (pruneTable t) s _ _ _ (by decide) (by decide)
        (by decide),
      slaRow_over_stills, slaRow_over_stills]
    exact catOverView_second _ today (pruneTable t) (pruneTable u) s _ r0
      _ _ (hiffcat "Photo Still Date" (by decide))
      (hcateq r0 "Photo Still Date" (by decide))
      (hcateq r0 "Still Upload Date" (by decide))
  · apply hcolveq
    intro r0 hr0
    rw [cellAt_of_mem u2 _ _ ((hc2 _).mpr (Or.inr (Or.inl (by decide)))),
      cellAt_of_mem u _ _ ((hc1 _).mpr (Or.inr (Or.inl (by decide)))),
      outRow_slaCol today (pruneTable u) s _ _ _ (by decide) (by decide)
        (by decide),
      outRow_slaCol today (pruneTable t) s _ _ _ (by decide) (by decide)
        (by decide),
      slaRow_flag_model, slaRow_flag_model]
    exact hflagM r0
  · apply hcolveq
    intro r0 hr0
    rw [cellAt_of_mem u2 _ _ ((hc2 _).mpr (Or.inr (Or.inl (by decide)))),
      cellAt_of_mem u _ _ ((hc1 _).mpr (Or.inr (Or.inl (by decide)))),
      outRow_slaCol today (pruneTable u) s _ _ _ (by decide) (by decide)
        (by decide),
      outRow_slaCol today (pruneTable t) s _ _ _ (by decide) (by decide)
        (by decide),
      slaRow_over_model, slaRow_over_model]
    exact catOverView_second _ today (pruneTable t) (pruneTable u) s _ r0
      _ _ (hiffcat "Photo Model Date" (by decide))
      (hcateq r0 "Photo Model Date" (by decide))
      (hcateq r0 "Model Upload Date" (by decide))
  · apply hcolveq
    intro r0 hr0
    rw [cellAt_of_mem u2 _ _ ((hc2 _).mpr (Or.inr (Or.inl (by decide)))),
      cellAt_of_mem u _ _ ((hc1 _).mpr (Or.inr (Or.inl (by decide)))),
      outRow_slaCol today (pruneTable u) s _ _ _ (by decide) (by decide)
        (by decide),
      outRow_slaCol today (pruneTable t) s _ _ _ (by decide) (by decide)
        (by decide),
      slaRow_flag_mann, slaRow_flag_mann]
    exact hflagQ r0
  · apply hcolveq
    intro r0 hr0
    rw [cellAt_of_mem u2 _ _ ((hc2 _).mpr (Or.inr (Or.inl (by decide)))),
      cellAt_of_mem u _ _ ((hc1 _).mpr (Or.inr (Or.inl (by decide)))),
      outRow_slaCol today (pruneTable u) s _ _ _ (by decide) (by decide)
        (by decide),
      outRow_slaCol today (pruneTable t) s _ _ _ (by decide) (by decide)
        (by decide),
      slaRow_over_mann, slaRow_over_mann]
    exact catOverView_second _ today (pruneTable t) (pruneTable u) s _ r0
      _ _ (hiffcat "Photo Mannequin Date" (by decide))
      (hcateq r0 "Photo Mannequin Date" (by decide))
      (hcateq r0 "Mannequin Upload Date" (by decide))
  · apply hcolveq
    intro r0 hr0
    rw [cellAt_of_mem u2 _ _ ((hc2 _).mpr (Or.inr (Or.inl (by decide)))),
      cellAt_of_mem u _ _ ((hc1 _).mpr (Or.inr (Or.inl (by decide)))),
      outRow_notes, outRow_notes]
    exact notesView_second today (pruneTable t) (pruneTable u) s _ r0
      (hiffcat "Photo Still Date" (by decide))
      (fun oc ho => hoceq r0 oc ho)
      (hcateq r0 "Photo Still Date" (by decide))
  · apply hcolveq
    intro r0 hr0
    rw [cellAt_of_mem u2 _ _ ((hc2 _).mpr (Or.inr (Or.inl (by decide)))),
      cellAt_of_mem u _ _ ((hc1 _).mpr (Or.inr (Or.inl (by decide)))),
      outRow_dis, outRow_dis]
    exact disView_second today (pruneTable t) (pruneTable u) s _ r0
      (hseq r0) (fun oc ho => hoceq r0 oc ho)
      (fun c hc => hcateq r0 c hc)
  · apply hcolveq
    intro r0 hr0
    rw [cellAt_of_mem u2 _ _ ((hc2 _).mpr (Or.inr (Or.inr rfl))),
      cellAt_of_mem u _ _ ((hc1 _).mpr (Or.inr (Or.inr rfl))),
      outRow_status, outRow_status]
    exact statusView_second today (pruneTable t) (pruneTable u) s _ r0
      (hflagS r0) (hflagM r0) (hflagQ r0)

/-- C9 (witness): the amended theorem applied to `w9t` at day 11 — the
resolution-stability hypotheses hold there and the second run preserves the
derived columns. -/
theorem c9_second_run_stable_witness :
    findScanIn (pruneTable w9t).cols = some "Scan In Date"
    ∧ ∃ u u2, engine 11 w9t = Except.ok u ∧ engine 11 u = Except.ok u2
      ∧ ∀ x ∈ derivedCols, colVals u2 x = colVals u x :=
  ⟨by decide, c9_second_run_stable 11 w9t "Scan In Date" (by decide)
    (by decide) (by decide) (by decide) (by decide)⟩

/-! ## Claim C1: per-record, per-category SLA verdict -/

/-- C1.  For a record with a known photo date, the SLA evaluator uses the
upload date as the end when known and the reference today otherwise, stores
`overage = max(0, businessDays(photo, end) - 2)`, and flags "LATE" exactly
when the overage is positive; the stored overage is never negative.  For a
record with an unknown photo date, no verdict is emitted (the overage is
NaN and the flag empty), even when the upload date is present. -/
theorem c1_sla_verdict (today p : Int) (upload : Option Int) :
    (slaEval 2 today (some p) upload).1
        = some (max (busdayCount p (upload.getD today) - 2) 0)
  ∧ ((slaEval 2 today (some p) upload).2 = "LATE"
        ↔ 0 < max (busdayCount p (upload.getD today) - 2) 0)
  ∧ (0 ≤ max (busdayCount p (upload.getD today) - 2) 0)
  ∧ slaEval 2 today none upload = (none, "") := by
  refine ⟨?_, ?_, ?_, ?_⟩
  · cases upload <;> rfl
  · have h1 : (slaEval 2 today (some p) upload).2
        = if 0 < max (busdayCount p (upload.getD today) - 2) 0
          then "LATE" else "" := by
      cases upload <;> rfl
    rw [h1]
    by_cases h : 0 < max (busdayCount p (upload.getD today) - 2) 0
    · simp [h]
    · simp [h]
  · exact le_max_right _ _
  · cases upload <;> rfl

/-- C1 witness: the spec scenario with photo on Monday day 4, no upload
date, and today one week later gives overage 3 and the LATE flag. -/
theorem c1_sla_verdict_witness :
    (slaEval 2 11 (some 4) none).1 = some 3
    ∧ (slaEval 2 11 (some 4) none).2 = "LATE" := by
  obtain ⟨h1, h2, _, _⟩ := c1_sla_verdict 11 4 none
  refine ⟨?_, ?_⟩
  · rw [h1]; decide
  · rw [h2]; decide

/-! ## Claim C2: the business-day calculator (amended) -/

/-- C2 counterexample to "the result is negative when `end < start`":
day 3 is a Sunday and day 2 the Saturday just before it, so the end precedes
the start yet `busday_count` returns 0, not a negative number. -/
theorem c2_counterexample :
    (2 : Int) < 3 ∧ busdayCount 3 2 = 0 ∧ ¬ busdayCount 3 2 < 0 := by
  decide

/-- C2 (amended).  `working_days_diff` is unknown when either input is
unknown and otherwise counts weekdays over the half-open interval
`[start, end)`: `businessDays(d, d) = 0`, `businessDays(d, d+7) = 5`,
the count is non-negative when `end ≥ start` and non-positive — but not
always strictly negative — when `end < start`; it is not clamped at zero
(e.g. from Monday day 7 back to Saturday day 2 it is -3). -/
theorem c2_business_days (d s e : Int) (a : Option Int) :
    workingDaysDiff none a = none
  ∧ workingDaysDiff a none = none
  ∧ workingDaysDiff (some s) (some e) = some (busdayCount s e)
  ∧ busdayCount d d = 0
  ∧ busdayCount d (d + 7) = 5
  ∧ (s ≤ e → 0 ≤ busdayCount s e)
  ∧ (e < s → busdayCount s e ≤ 0)
  ∧ busdayCount 7 2 = -3 := by
  refine ⟨rfl, ?_, rfl, busdayCount_self d, busdayCount_week d,
    busdayCount_nonneg s e, busdayCount_nonpos s e, by decide⟩
  cases a <;> rfl

/-- C2 witness: the sign facts instantiated on a concrete week. -/
theorem c2_business_days_witness :
    0 ≤ busdayCount 4 11 ∧ busdayCount 11 4 ≤ 0 :=
  ⟨(c2_business_days 0 4 11 none).2.2.2.2.2.1 (by decide),
   (c2_business_days 0 11 4 none).2.2.2.2.2.2.1 (by decide)⟩

/-! ## Claim C3: date parsing (code bug: month-first, not day-first) -/

/-- C3.  Evaluating the date normalizer of the code (`pd.to_datetime` with
its default `dayfirst=False`) on the claim's inputs: the ambiguous
"03/04/2024" resolves month-first to 4 March 2024 — not to 3 April 2024 as
the specification requires — while "31/01/2024" still resolves to
31 January 2024 and the unparseable "13/25/2024" coerces to unknown. -/
theorem c3_month_first_parse :
    toDatetimeText "03/04/2024" = some (2024, 3, 4)
  ∧ toDatetimeText "03/04/2024" ≠ some (2024, 4, 3)
  ∧ toDatetimeText "31/01/2024" = some (2024, 1, 31)
  ∧ toDatetimeText "13/25/2024" = none := by
  decide

/-! ## Claim C4: studio-residency priority list -/

/-- C4.  The residency classifier is a priority list, first match wins:
(1) known scan-in, known scan-out and all shot/upload cells blank gives
SCANNED OUT AND NEVER SHOT; (2) otherwise a known scan-out gives SCANNED
OUT even when shot fields are present; (3) otherwise a known scan-in gives
the business-day count from scan-in to today; (4) otherwise blank. -/
theorem c4_residency_priority (today : Int) (si so : Option Int)
    (shots : List Cell) :
    ((si.isSome = true ∧ so.isSome = true
        ∧ shots.all (fun c => decide (c = Cell.blank)) = true) →
      computeDaysInStudio today si so shots
        = Cell.text "SCANNED OUT AND NEVER SHOT")
  ∧ (so.isSome = true →
      ¬(si.isSome = true ∧ shots.all (fun c => decide (c = Cell.blank)) = true) →
      computeDaysInStudio today si so shots = Cell.text "SCANNED OUT")
  ∧ (∀ n, si = some n → so = none →
      computeDaysInStudio today si so shots
        = Cell.num (busdayCount n today))
  ∧ (si = none → so = none →
      computeDaysInStudio today si so shots = Cell.blank) := by
  refine ⟨?_, ?_, ?_, ?_⟩
  · rintro ⟨h1, h2, h3⟩
    unfold computeDaysInStudio
    rw [if_pos (by rw [h1, h2, h3]; rfl)]
  · intro h2 hneg
    unfold computeDaysInStudio
    rw [if_neg, if_pos h2]
    intro hall
    rcases Bool.and_eq_true_iff.mp hall with ⟨hl, hr⟩
    rcases Bool.and_eq_true_iff.mp hl with ⟨ha, _⟩
    exact hneg ⟨ha, hr⟩
  · rintro n rfl rfl
    rfl
  · rintro rfl rfl
    rfl

/-- C4 witness: all four branches exercised on concrete records. -/
theorem c4_residency_priority_witness :
    computeDaysInStudio 11 (some 4) (some 5) [Cell.blank, Cell.blank]
        = Cell.text "SCANNED OUT AND NEVER SHOT"
  ∧ computeDaysInStudio 11 (some 4) (some 5) [Cell.date 4]
        = Cell.text "SCANNED OUT"
  ∧ computeDaysInStudio 11 (some 4) none [Cell.date 4] = Cell.num 5
  ∧ computeDaysInStudio 11 none none [Cell.date 4] = Cell.blank := by
  refine ⟨(c4_residency_priority 11 (some 4) (some 5)
      [Cell.blank, Cell.blank]).1 ⟨rfl, rfl, by decide⟩,
    (c4_residency_priority 11 (some 4) (some 5) [Cell.date 4]).2.1 rfl
      (by decide), ?_, ?_⟩
  · have h := (c4_residency_priority 11 (some 4) none [Cell.date 4]).2.2.1
      4 rfl rfl
    rw [h]; decide
  · exact (c4_residency_priority 11 none none [Cell.date 4]).2.2.2 rfl rfl

/-! ## Claim C5: the SLA status aggregator -/

theorem contains3_iff (v1 v2 v3 x : Cell) :
    [v1, v2, v3].contains x = true ↔ (v1 = x ∨ v2 = x ∨ v3 = x) := by
  simp [List.contains]
  tauto

/-- C5.  The aggregate "SLA status" column is the row-wise image of the
aggregation lambda; that lambda yields "LATE" exactly when one of the three
per-category flags is the string "LATE" and the empty string otherwise, and
it depends on nothing but the three flag cells (a skipped category's NaN
flag counts as not breached). -/
theorem c5_status_aggregation (t : Table) :
    colVals (slaStatusStep t) "SLA status"
      = t.rows.map (fun r => Cell.text (slaStatusRow t r))
  ∧ (∀ r : Row, (slaStatusRow t r = "LATE" ↔
        (cellAt t r "Stills Out of SLA" = Cell.text "LATE"
         ∨ cellAt t r "Model Out of SLA" = Cell.text "LATE"
         ∨ cellAt t r "Mannequin Out of SLA" = Cell.text "LATE")))
  ∧ (∀ r : Row, slaStatusRow t r = "LATE" ∨ slaStatusRow t r = "")
  ∧ (∀ (t' : Table) (r r' : Row),
      (∀ c ∈ slaCols, cellAt t r c = cellAt t' r' c) →
      slaStatusRow t r = slaStatusRow t' r') := by
  refine ⟨?_, ?_, ?_, ?_⟩
  · unfold slaStatusStep
    rw [colVals_setCol, if_pos rfl]
  · intro r
    unfold slaStatusRow slaCols
    simp only [List.map_cons, List.map_nil]
    by_cases h : [cellAt t r "Stills Out of SLA",
        cellAt t r "Model Out of SLA",
        cellAt t r "Mannequin Out of SLA"].contains (Cell.text "LATE") = true
    · rw [if_pos h]
      have h2 := (contains3_iff _ _ _ _).mp h
      simp only [true_iff]
      tauto
    · rw [if_neg h]
      constructor
      · intro hh
        exact absurd hh (by decide)
      · intro hh
        exact absurd ((contains3_iff _ _ _ _).mpr (by tauto)) h
  · intro r
    unfold slaStatusRow
    by_cases h : (slaCols.map (fun c => cellAt t r c)).contains
        (Cell.text "LATE") = true
    · rw [if_pos h]; exact Or.inl rfl
    · rw [if_neg h]; exact Or.inr rfl
  · intro t' r r' h
    unfold slaStatusRow slaCols
    simp only [List.map_cons, List.map_nil]
    simp only [h "Stills Out of SLA" (by simp [slaCols]),
      h "Model Out of SLA" (by simp [slaCols]),
      h "Mannequin Out of SLA" (by simp [slaCols])]

/-- C5 witness: on the sample output, a row whose stills flag is "LATE"
aggregates to "LATE", and the aggregate column is the image of the lambda. -/
theorem c5_status_aggregation_witness :
    slaStatusRow tSampleOut (mkRow [("Stills Out of SLA", Cell.text "LATE")])
        = "LATE"
  ∧ colVals (slaStatusStep tSampleOut) "SLA status"
      = tSampleOut.rows.map (fun r => Cell.text (slaStatusRow tSampleOut r)) :=
  ⟨((c5_status_aggregation tSampleOut).2.1 _).mpr (Or.inl (by decide)),
   (c5_status_aggregation tSampleOut).1⟩

/-! ## Claim C6: the mandatory scan-in column and filter -/

/-- C6.  When the pruned table has no column whose name contains both "scan"
and "in", the whole run aborts with no partial output; otherwise, whenever
the run completes, the output holds exactly the records whose scan-in date
normalized to a known date — records with unknown scan-in are silently
dropped from the output and from all downstream processing. -/
theorem c6_scan_in_gate (today : Int) (t : Table) :
    (findScanIn (pruneTable t).cols = none →
      engine today t = Except.error EngineErr.noScanIn)
  ∧ (∀ s, findScanIn (pruneTable t).cols = some s →
      ∀ u, engine today t = Except.ok u →
        u.rows.length = (keptRows (pruneTable t) s).length) := by
  constructor
  · intro hnone
    unfold engine
    rw [hnone]
  · intro s hsome u hok
    unfold engine at hok
    rw [hsome] at hok
    exact engineWithScan_ok_rows_length today s (pruneTable t) u
      (List.mem_of_find?_eq_some hsome) hok

/-- C6 witness: a table with no scan-in column aborts, and on the sample
table the single parseable record survives into the output. -/
theorem c6_scan_in_gate_witness :
    engine 0 { cols := ["A", "B"], rows := [] }
      = Except.error EngineErr.noScanIn
  ∧ tSampleOut.rows.length = (keptRows (pruneTable tSample) "Scan In Date").length :=
  ⟨(c6_scan_in_gate 0 { cols := ["A", "B"], rows := [] }).1 (by decide),
   (c6_scan_in_gate 11 tSample).2 "Scan In Date" (by decide) tSampleOut
     (by rfl)⟩

/-! ## Claim C7: photo column present, upload column absent (code bug) -/

/-- C7.  On a table whose pruned columns contain "Photo Still Date" but not
"Still Upload Date", the engine does not evaluate the category against
today: the SLA loop aborts the whole run (the code builds `end = pd.NaT`, a
scalar, and calls `.fillna` on it, which raises out of the script), contrary
to the claim that a missing upload column is recoverable. -/
theorem c7_upload_missing_crash :
    findScanIn (pruneTable tMissingUpload).cols = some "Scan In Date"
  ∧ (pruneTable tMissingUpload).cols.contains "Photo Still Date" = true
  ∧ (pruneTable tMissingUpload).cols.contains "Still Upload Date" = false
  ∧ engine 11 tMissingUpload = Except.error EngineErr.slaUploadMissing := by
  refine ⟨by decide, by decide, by decide, by rfl⟩

end RetouchSLA
